import Mathlib

/-!
# The secret syncer of vcluster (`pkg/controllers/resources/secrets/syncer.go`)

A shallow embedding of the secret syncer: the reference router (`mapPods`,
`mapIngresses`), the index functions set up by `Register`, the usage check
`isSecretUsed`, the translator `translate` and the forward and backward
sync methods.

Conventions of the embedding.

* A Go `client.Object` is a value of `Object`.  A `*corev1.Secret` may be the
  nil pointer, which `isSecretUsed` tests for, so the secret case carries an
  `Option`.
* Calls that leave the file (the two clients, the event recorder, the logger,
  `clienthelper`, `translate.SetupMetadata`, the two `SecretNamesFrom...`
  extractors) are not defined in this file of the repository.  What they
  answer is a field of `Deps` or of `Client`; that they were called is
  written to a trace of `Effect`s, in program order.  One call of a syncer
  method sees one snapshot of both stores.
* A Go `(T, error)` result is a pair whose second component is `none` for a
  nil error.  A Go panic is `Outcome.panic`.
-/

namespace Secrets

/-! ## Data model -/

/-- The value of `corev1.SecretTypeOpaque`. -/
def SecretTypeOpaque : String := "Opaque"

/-- The value of `corev1.SecretTypeServiceAccountToken`. -/
def SecretTypeServiceAccountToken : String := "kubernetes.io/service-account-token"

/-- A `corev1.Secret`, reduced to its identity, its metadata maps, its data
and its type; `Type_` is the Go field `Type`. -/
structure Secret where
  Namespace : String
  Name : String
  Labels : List (String × String)
  Annotations : List (String × String)
  Data : List (String × List Nat)
  Type_ : String
  deriving DecidableEq, Repr

/-- A `corev1.Pod`, reduced to its identity and the names of the secrets its
volumes mount. -/
structure Pod where
  Namespace : String
  Name : String
  Volumes : List String
  deriving DecidableEq, Repr

/-- A `networkingv1beta1.Ingress`, reduced to its identity and the secret
names of its TLS section. -/
structure Ingress where
  Namespace : String
  Name : String
  TLS : List String
  deriving DecidableEq, Repr

/-- A `client.Object` (also used for `runtime.Object`): an interface value
holding a pointer to a typed Kubernetes object.  `secret none` is the nil
`*corev1.Secret`. -/
inductive Object where
  | secret (s : Option Secret)
  | pod (p : Pod)
  | ingress (i : Ingress)
  | other (kind : String) (Namespace : String) (Name : String)
  deriving DecidableEq, Repr

/-- The list type handed to `client.List`: `corev1.PodList` or
`networkingv1beta1.IngressList`. -/
inductive Kind where
  | Pod
  | Ingress
  deriving DecidableEq, Repr

/-- A Go `error` value. -/
inductive Err where
  | notASecret (vObj : Object)
  | wrap (cause : Err) (message : String)
  | ext (message : String)
  deriving DecidableEq, Repr

/-- A `types.NamespacedName`. -/
structure NamespacedName where
  Namespace : String
  Name : String
  deriving DecidableEq, Repr

/-- A `reconcile.Request`. -/
structure Request where
  NamespacedName : NamespacedName
  deriving DecidableEq, Repr

/-- A `ctrl.Result`; `RequeueAfter` is a `time.Duration`, in nanoseconds. -/
structure Result where
  Requeue : Bool := false
  RequeueAfter : Nat := 0
  deriving DecidableEq, Repr

/-- The value of `time.Second`. -/
def Second : Nat := 1000000000

/-- What a Go call does: it returns a value or it panics. -/
inductive Outcome (α : Type) where
  | ret (a : α)
  | panic (message : String)
  deriving DecidableEq, Repr

/-- One call that leaves the syncer, as it is issued. -/
inductive Effect where
  | List (kind : Kind) (key : String)
  | Apply (obj : Secret)
  | Delete (obj : Object)
  | Eventf (obj : Secret) (eventtype : String) (reason : String) (messageFmt : String) (err : Err)
  | Infof (format : String) (args : List String) (err : Err)
  | Debugf (format : String) (args : List String)
  deriving DecidableEq, Repr

/-- The effect writes to the physical store. -/
def Effect.isMutation : Effect → Bool
  | .Apply _ => true
  | .Delete _ => true
  | _ => false

/-- The effect is an `Apply` on the physical store. -/
def Effect.isApply : Effect → Bool
  | .Apply _ => true
  | _ => false

/-- The effect is a `Delete` on the physical store. -/
def Effect.isDelete : Effect → Bool
  | .Delete _ => true
  | _ => false

/-- The effect records an event. -/
def Effect.isEvent : Effect → Bool
  | .Eventf _ _ _ _ _ => true
  | _ => false

/-- The effect reads a store. -/
def Effect.isRead : Effect → Bool
  | .List _ _ => true
  | _ => false

/-- A value together with the effects issued while computing it. -/
structure Traced (α : Type) where
  val : α
  trace : List Effect

/-- A `client.Client`: what the store holds, and what it answers to the calls
the syncer makes.  `List kind key` is `List` with
`client.MatchingFields{constants.IndexBySecret: key}`. -/
structure Client where
  objects : List Object
  List : Kind → String → Except Err (List Object)
  Delete : Object → Option Err

/-- The functions of other packages the file calls. -/
structure Deps where
  SecretNamesFromPod : Pod → List String
  SecretNamesFromIngress : Ingress → List String
  SetupMetadata : String → Object → Except Err Object
  Apply : Client → Secret → Option Err
  AppliedObjectsEqual : Object → Secret → Except Err Bool

/-- The `syncer` struct; the event recorder has no state of its own and is
seen through `Effect.Eventf`. -/
structure syncer where
  targetNamespace : String
  virtualClient : Client
  localClient : Client
  includeIngresses : Bool

/-! ## Strings -/

/-- Splitting a character list at every occurrence of `sep`. -/
def splitChars (sep : Char) : List Char → List (List Char)
  | [] => [[]]
  | c :: cs =>
    if c = sep then [] :: splitChars sep cs
    else
      match splitChars sep cs with
      | [] => [[c]]
      | w :: ws => (c :: w) :: ws

/-- Go `strings.Split(s, sep)` for a separator of one character, the only use
in the file (`"/"`): all substrings of `s` between occurrences of `sep`. -/
def Split (s : String) (sep : Char) : List String :=
  (splitChars sep s.data).map String.mk

/-- Go `strings.Contains(s, substr)`. -/
def Contains (s : String) (substr : String) : Bool :=
  s.data.tails.any (fun t => substr.data.isPrefixOf t)

/-! ## The reference router -/

/-- The loop body shared by `mapIngresses` and `mapPods`. -/
def appendRequest (requests : List Request) (name : String) : List Request :=
  let splitted := Split name '/'
  if splitted.length = 2 then
    requests ++ [{ NamespacedName := { Namespace := splitted.getD 0 "", Name := splitted.getD 1 "" } }]
  else requests

/-- `mapIngresses` (lines 76-97). -/
def mapIngresses (d : Deps) (obj : Object) : List Request :=
  match obj with
  | .ingress ingress => (d.SecretNamesFromIngress ingress).foldl appendRequest []
  | _ => []

/-- `mapPods` (lines 99-120). -/
def mapPods (d : Deps) (obj : Object) : List Request :=
  match obj with
  | .pod pod => (d.SecretNamesFromPod pod).foldl appendRequest []
  | _ => []

/-! ## The usage check -/

/-- `syncer.isSecretUsed` (lines 182-210). -/
def isSecretUsed (s : syncer) (vObj : Object) : Traced (Bool × Option Err) :=
  match vObj with
  | .secret (some secret) =>
    let key := secret.Namespace ++ "/" ++ secret.Name
    match s.virtualClient.List Kind.Pod key with
    | .error err => ⟨(false, some err), [Effect.List Kind.Pod key]⟩
    | .ok podList =>
      if podList.length > 0 then ⟨(true, none), [Effect.List Kind.Pod key]⟩
      else if s.includeIngresses then
        match s.virtualClient.List Kind.Ingress key with
        | .error err =>
          ⟨(false, some err), [Effect.List Kind.Pod key, Effect.List Kind.Ingress key]⟩
        | .ok ingressesList =>
          ⟨(decide (ingressesList.length > 0), none),
            [Effect.List Kind.Pod key, Effect.List Kind.Ingress key]⟩
      else ⟨(false, none), [Effect.List Kind.Pod key]⟩
  | _ => ⟨(false, some (Err.notASecret vObj)), []⟩

/-! ## The translator -/

/-- `syncer.translate` (lines 140-152).  The type assertion on the object
`SetupMetadata` returns is unchecked, and the field access that follows
dereferences the pointer. -/
def translate (d : Deps) (s : syncer) (vObj : Object) : Outcome (Except Err Secret) :=
  match d.SetupMetadata s.targetNamespace vObj with
  | .error err => .ret (.error (Err.wrap err "error setting metadata"))
  | .ok newObj =>
    match newObj with
    | .secret (some newSecret) =>
      if newSecret.Type_ = SecretTypeServiceAccountToken then
        .ret (.ok { newSecret with Type_ := SecretTypeOpaque })
      else .ret (.ok newSecret)
    | .secret none => .panic "invalid memory address or nil pointer dereference"
    | _ => .panic "interface conversion: client.Object is not *v1.Secret"

/-! ## Forward sync -/

/-- `syncer.ForwardCreateNeeded` (lines 178-180). -/
def ForwardCreateNeeded (s : syncer) (vObj : Object) : Traced (Bool × Option Err) :=
  isSecretUsed s vObj

/-- `syncer.ForwardCreate` (lines 154-176). -/
def ForwardCreate (d : Deps) (s : syncer) (vObj : Object) :
    Traced (Outcome (Result × Option Err)) :=
  let r := ForwardCreateNeeded s vObj
  match r.val with
  | (_, some err) => ⟨.ret ({}, some err), r.trace⟩
  | (false, none) => ⟨.ret ({}, none), r.trace⟩
  | (true, none) =>
    match vObj with
    | .secret vSecret =>
      match translate d s vObj with
      | .panic message => ⟨.panic message, r.trace⟩
      | .ret (.error err) => ⟨.ret ({}, some err), r.trace⟩
      | .ret (.ok newSecret) =>
        match d.Apply s.localClient newSecret with
        | some err =>
          match vSecret with
          | none =>
            ⟨.panic "invalid memory address or nil pointer dereference",
              r.trace ++ [Effect.Apply newSecret]⟩
          | some vSecret =>
            ⟨.ret ({ RequeueAfter := Second }, some err),
              r.trace ++ [Effect.Apply newSecret,
                Effect.Infof "error syncing %s/%s to physical cluster: %v"
                  [vSecret.Namespace, vSecret.Name] err,
                Effect.Eventf vSecret "Warning" "SyncError"
                  "Error syncing to physical cluster: %v" err]⟩
        | none => ⟨.ret ({}, none), r.trace ++ [Effect.Apply newSecret]⟩
    | _ => ⟨.panic "interface conversion: client.Object is not *v1.Secret", r.trace⟩

/-- What `pSecret.GetNamespace()` and `pSecret.GetName()` return after
`pSecret, _ := meta.Accessor(pObj)`: every `client.Object` is a
`metav1.Object`, so the accessor is the object itself, and reading its
metadata dereferences the pointer (`none`: the pointer is nil). -/
def Accessor : Object → Option (String × String)
  | .secret (some s) => some (s.Namespace, s.Name)
  | .secret none => none
  | .pod p => some (p.Namespace, p.Name)
  | .ingress i => some (i.Namespace, i.Name)
  | .other _ ns name => some (ns, name)

/-- `syncer.ForwardUpdate` (lines 212-229). -/
def ForwardUpdate (d : Deps) (s : syncer) (pObj : Object) (vObj : Object) :
    Traced (Outcome (Result × Option Err)) :=
  let r := isSecretUsed s vObj
  match r.val with
  | (_, some err) => ⟨.ret ({}, some err), r.trace⟩
  | (false, none) =>
    match Accessor pObj with
    | none => ⟨.panic "invalid memory address or nil pointer dereference", r.trace⟩
    | some (ns, name) =>
      let t := r.trace ++
        [Effect.Debugf "delete physical secret %s/%s, because it is not used anymore" [ns, name],
          Effect.Delete pObj]
      match s.localClient.Delete pObj with
      | some err =>
        ⟨.ret ({}, some err),
          t ++ [Effect.Infof "error deleting physical object %s/%s in physical cluster: %v"
            [ns, name] err]⟩
      | none => ⟨.ret ({}, none), t⟩
  | (true, none) =>
    let c := ForwardCreate d s vObj
    ⟨c.val, r.trace ++ c.trace⟩

/-- `syncer.ForwardUpdateNeeded` (lines 231-250). -/
def ForwardUpdateNeeded (d : Deps) (s : syncer) (pObj : Object) (vObj : Object) :
    Traced (Outcome (Bool × Option Err)) :=
  let r := isSecretUsed s vObj
  match r.val with
  | (_, some err) => ⟨.ret (false, some err), r.trace⟩
  | (false, none) => ⟨.ret (true, none), r.trace⟩
  | (true, none) =>
    match translate d s vObj with
    | .panic message => ⟨.panic message, r.trace⟩
    | .ret (.error err) => ⟨.ret (false, some err), r.trace⟩
    | .ret (.ok newSecret) =>
      match d.AppliedObjectsEqual pObj newSecret with
      | .error err => ⟨.ret (false, some err), r.trace⟩
      | .ok equal => ⟨.ret (equal == false, none), r.trace⟩

/-! ## Backward sync -/

/-- `syncer.BackwardUpdate` (lines 252-254). -/
def BackwardUpdate (_s : syncer) (_pObj : Object) (_vObj : Object) :
    Traced (Outcome (Result × Option Err)) :=
  ⟨.ret ({}, none), []⟩

/-- `syncer.BackwardUpdateNeeded` (lines 256-258). -/
def BackwardUpdateNeeded (_s : syncer) (_pObj : Object) (_vObj : Object) :
    Traced (Outcome (Bool × Option Err)) :=
  ⟨.ret (false, none), []⟩

/-! ## Registration -/

/-- `indexPodBySecret` (lines 33-36); the type assertion is unchecked. -/
def indexPodBySecret (d : Deps) (rawObj : Object) : Outcome (List String) :=
  match rawObj with
  | .pod pod => .ret (d.SecretNamesFromPod pod)
  | _ => .panic "interface conversion: client.Object is not *v1.Pod"

/-- The function literal `Register` indexes ingresses with (lines 47-50). -/
def indexIngressBySecret (d : Deps) (rawObj : Object) : Outcome (List String) :=
  match rawObj with
  | .ingress ingress => .ret (d.SecretNamesFromIngress ingress)
  | _ => .panic "interface conversion: client.Object is not *v1beta1.Ingress"

/-- A watch added to the controller builder: the watched kind and the
function mapping a changed object to reconcile requests. -/
structure Watch where
  kind : Kind
  mapFn : Object → List Request

/-- The part of `context2.ControllerContext` that `Register` reads: two
options, the two managers' clients, and what the field indexer and
`generic.RegisterSyncer` answer. -/
structure ControllerContext where
  DisableSyncResources : String
  TargetNamespace : String
  VirtualClient : Client
  LocalClient : Client
  IndexField : Kind → Option Err
  RegisterSyncer : Option Err

/-- The function literal passed as `ModifyForwardSyncer` (lines 66-72); a
builder is seen as the list of watches added to it. -/
def ModifyForwardSyncer (d : Deps) (includeIngresses : Bool) (builder : List Watch) :
    List Watch :=
  let builder :=
    if includeIngresses then builder ++ [{ kind := Kind.Ingress, mapFn := mapIngresses d }]
    else builder
  builder ++ [{ kind := Kind.Pod, mapFn := mapPods d }]

/-- What a call of `Register` leaves behind: the field indexes it added, the
syncer and builder hook it handed to `generic.RegisterSyncer` (if it got that
far), and the error it returned. -/
structure Registration where
  indexes : List (Kind × (Object → Outcome (List String)))
  registered : Option (syncer × (List Watch → List Watch))
  err : Option Err

/-- `Register` (lines 38-74).  Setting up the event broadcaster (lines 56-57)
touches neither store and is left out. -/
def Register (d : Deps) (ctx : ControllerContext) : Registration :=
  match ctx.IndexField Kind.Pod with
  | some err => { indexes := [], registered := none, err := some err }
  | none =>
    let podIndex := [(Kind.Pod, indexPodBySecret d)]
    let includeIngresses := Contains ctx.DisableSyncResources "ingresses" == false
    let s : syncer :=
      { targetNamespace := ctx.TargetNamespace
        virtualClient := ctx.VirtualClient
        localClient := ctx.LocalClient
        includeIngresses := includeIngresses }
    if includeIngresses then
      match ctx.IndexField Kind.Ingress with
      | some err => { indexes := podIndex, registered := none, err := some err }
      | none =>
        { indexes := podIndex ++ [(Kind.Ingress, indexIngressBySecret d)]
          registered := some (s, ModifyForwardSyncer d includeIngresses)
          err := ctx.RegisterSyncer }
    else
      { indexes := podIndex
        registered := some (s, ModifyForwardSyncer d includeIngresses)
        err := ctx.RegisterSyncer }

/-! ## Notions of the specification -/

/-- The reconcile request a reference string stands for: the string splits on
`/` into exactly two parts, the namespace and the name. -/
def requestOf (name : String) : Option Request :=
  match Split name '/' with
  | [ns, n] => some { NamespacedName := { Namespace := ns, Name := n } }
  | _ => none

/-- The physical counterpart of a virtual object: the object of the physical
store that carries the translated identity. -/
def physicalCounterpart (d : Deps) (s : syncer) (vObj : Object) : Option Object :=
  match translate d s vObj with
  | .ret (.ok t) =>
    s.localClient.objects.find? (fun o => Accessor o == some (t.Namespace, t.Name))
  | _ => none

/-! ## Example data -/

/-- Extractors that prefix every secret name an object mentions with the
namespace of the object, a metadata setup that moves a secret to the target
namespace under the name `name-x-namespace`, an apply that succeeds, and an
equality that compares whole objects. -/
def exampleDeps : Deps where
  SecretNamesFromPod := fun p => p.Volumes.map (fun n => p.Namespace ++ "/" ++ n)
  SecretNamesFromIngress := fun i => i.TLS.map (fun n => i.Namespace ++ "/" ++ n)
  SetupMetadata := fun target o =>
    match o with
    | .secret (some v) =>
      .ok (.secret (some { v with Namespace := target, Name := v.Name ++ "-x-" ++ v.Namespace }))
    | _ => .error (Err.ext "unsupported object")
  Apply := fun _ _ => none
  AppliedObjectsEqual := fun p n => .ok (p == Object.secret (some n))

/-- A store that answers `List` through the field index `Register` sets up:
for a key it returns its objects of the asked kind whose index function, the
extractor of `d`, yields that key.  It accepts every delete. -/
def storeOf (d : Deps) (objects : List Object) : Client where
  objects := objects
  List := fun kind key =>
    .ok (objects.filter (fun o =>
      match kind, o with
      | Kind.Pod, Object.pod p => (d.SecretNamesFromPod p).contains key
      | Kind.Ingress, Object.ingress i => (d.SecretNamesFromIngress i).contains key
      | _, _ => false))
  Delete := fun _ => none

/-- The virtual secret `ns/db-pw`. -/
def dbPw : Secret :=
  { Namespace := "ns", Name := "db-pw", Labels := [], Annotations := [],
    Data := [("password", [112, 119])], Type_ := SecretTypeOpaque }

/-- The virtual secret `ns/tls-cert`. -/
def tlsCert : Secret :=
  { Namespace := "ns", Name := "tls-cert", Labels := [], Annotations := [],
    Data := [], Type_ := "kubernetes.io/tls" }

/-- A service-account token `ns/sa-token`. -/
def saToken : Secret :=
  { Namespace := "ns", Name := "sa-token", Labels := [], Annotations := [],
    Data := [("token", [116])], Type_ := SecretTypeServiceAccountToken }

/-- The pod `ns/app`, which mounts the secret `db-pw`. -/
def appPod : Pod := { Namespace := "ns", Name := "app", Volumes := ["db-pw"] }

/-- The ingress `ns/web`, whose TLS section names the secret `tls-cert`. -/
def webIngress : Ingress := { Namespace := "ns", Name := "web", TLS := ["tls-cert"] }

/-- The physical secret the example metadata setup makes of `dbPw`. -/
def dbPwPhysical : Secret :=
  { dbPw with Namespace := "target-ns", Name := "db-pw-x-ns" }

/-- A syncer over a virtual store that holds `appPod` and `webIngress` and a
physical store that holds `dbPwPhysical`. -/
def exampleSyncer (includeIngresses : Bool) : syncer where
  targetNamespace := "target-ns"
  virtualClient := storeOf exampleDeps [Object.pod appPod, Object.ingress webIngress]
  localClient := storeOf exampleDeps [Object.secret (some dbPwPhysical)]
  includeIngresses := includeIngresses

/-- A syncer over an empty virtual store. -/
def idleSyncer (includeIngresses : Bool) : syncer where
  targetNamespace := "target-ns"
  virtualClient := storeOf exampleDeps []
  localClient := storeOf exampleDeps [Object.secret (some dbPwPhysical)]
  includeIngresses := includeIngresses

/-- The physical secret `translate` makes of `saToken` under the example
metadata setup. -/
def saTokenPhysical : Secret :=
  { Namespace := "target-ns", Name := "sa-token-x-ns", Labels := [], Annotations := [],
    Data := [("token", [116])], Type_ := SecretTypeOpaque }

/-- The pod `ns/app2`, whose secret volume is named `a/b`. -/
def slashPod : Pod := { Namespace := "ns", Name := "app2", Volumes := ["a/b"] }

/-- The pod `ns/app3`, with a secret volume whose name is empty. -/
def emptyNamePod : Pod := { Namespace := "ns", Name := "app3", Volumes := [""] }

/-- The ingress `ns/web2`, with a TLS entry whose secret name is empty. -/
def emptyNameIngress : Ingress := { Namespace := "ns", Name := "web2", TLS := [""] }

/-- A controller context with every resource synced, over the stores of
`exampleSyncer`, in which indexing and registration succeed. -/
def exampleContext : ControllerContext where
  DisableSyncResources := ""
  TargetNamespace := "target-ns"
  VirtualClient := storeOf exampleDeps [Object.pod appPod, Object.ingress webIngress]
  LocalClient := storeOf exampleDeps [Object.secret (some dbPwPhysical)]
  IndexField := fun _ => none
  RegisterSyncer := none

/-- The example functions, with an apply that fails on a conflict. -/
def conflictDeps : Deps :=
  { exampleDeps with Apply := fun _ _ => some (Err.ext "conflict") }

/-- The example functions, with a metadata setup that fails. -/
def brokenSetupDeps : Deps :=
  { exampleDeps with SetupMetadata := fun _ _ => .error (Err.ext "no metadata") }

/-- A physical store that holds `dbPwPhysical` and refuses every delete. -/
def stuckStore : Client where
  objects := [Object.secret (some dbPwPhysical)]
  List := fun _ _ => .ok []
  Delete := fun _ => some (Err.ext "unavailable")

/-- A syncer over an empty virtual store and the physical store `stuckStore`. -/
def stuckSyncer (includeIngresses : Bool) : syncer where
  targetNamespace := "target-ns"
  virtualClient := storeOf exampleDeps []
  localClient := stuckStore
  includeIngresses := includeIngresses

/-- The context `exampleContext` with the syncing of ingresses disabled. -/
def noIngressContext : ControllerContext :=
  { exampleContext with DisableSyncResources := "ingresses" }

/-! ## The usage check: properties -/

/-- With both index queries answered, the usage check returns no error and
the disjunction of the two non-emptiness tests, the second one guarded by
`includeIngresses`. -/
theorem isSecretUsed_val (s : syncer) (secret : Secret) (pods ingresses : List Object)
    (hPods : s.virtualClient.List Kind.Pod (secret.Namespace ++ "/" ++ secret.Name) = .ok pods)
    (hIngresses :
      s.virtualClient.List Kind.Ingress (secret.Namespace ++ "/" ++ secret.Name) = .ok ingresses) :
    (isSecretUsed s (Object.secret (some secret))).val =
      (decide (pods ≠ [] ∨ (s.includeIngresses = true ∧ ingresses ≠ [])), none) := by
  cases pods with
  | nil =>
    cases hI : s.includeIngresses with
    | false => simp [isSecretUsed, hPods, hI]
    | true =>
      cases ingresses with
      | nil => simp [isSecretUsed, hPods, hIngresses, hI]
      | cons i is => simp [isSecretUsed, hPods, hIngresses, hI]
  | cons p ps => simp [isSecretUsed, hPods]

/-- C1: for a non-nil virtual secret and successful answers `pods` and
`ingresses` of the two index queries, `isSecretUsed` returns `(true, nil)` if
and only if `pods` is non-empty, or ingress syncing is enabled and
`ingresses` is non-empty; otherwise it returns `(false, nil)`. -/
theorem isSecretUsed_iff (s : syncer) (secret : Secret) (pods ingresses : List Object)
    (hPods : s.virtualClient.List Kind.Pod (secret.Namespace ++ "/" ++ secret.Name) = .ok pods)
    (hIngresses :
      s.virtualClient.List Kind.Ingress (secret.Namespace ++ "/" ++ secret.Name) = .ok ingresses) :
    ((isSecretUsed s (Object.secret (some secret))).val = (true, none) ↔
        (pods ≠ [] ∨ (s.includeIngresses = true ∧ ingresses ≠ []))) ∧
      (¬ (pods ≠ [] ∨ (s.includeIngresses = true ∧ ingresses ≠ [])) →
        (isSecretUsed s (Object.secret (some secret))).val = (false, none)) := by
  rw [isSecretUsed_val s secret pods ingresses hPods hIngresses]
  by_cases h : pods ≠ [] ∨ (s.includeIngresses = true ∧ ingresses ≠ [])
  · simp [h]
  · simp [h]

/-- Witness of C1: the secret `ns/db-pw`, mounted by the pod `ns/app`. -/
theorem isSecretUsed_iff_witness :
    ((isSecretUsed (exampleSyncer true) (Object.secret (some dbPw))).val = (true, none) ↔
        ([Object.pod appPod] ≠ [] ∨ ((exampleSyncer true).includeIngresses = true ∧
          ([] : List Object) ≠ []))) ∧
      (¬ ([Object.pod appPod] ≠ [] ∨ ((exampleSyncer true).includeIngresses = true ∧
          ([] : List Object) ≠ [])) →
        (isSecretUsed (exampleSyncer true) (Object.secret (some dbPw))).val = (false, none)) :=
  isSecretUsed_iff (exampleSyncer true) dbPw [Object.pod appPod] [] rfl rfl

/-- The usage check issues index queries and nothing else. -/
theorem isSecretUsed_reads (s : syncer) (vObj : Object) :
    ∀ e ∈ (isSecretUsed s vObj).trace, e.isRead = true := by
  cases vObj with
  | secret o =>
    cases o with
    | none => simp [isSecretUsed]
    | some v =>
      cases h1 : s.virtualClient.List Kind.Pod (v.Namespace ++ "/" ++ v.Name) with
      | error e => simp [isSecretUsed, h1, Effect.isRead]
      | ok pods =>
        cases hI : s.includeIngresses <;>
          cases h2 : s.virtualClient.List Kind.Ingress (v.Namespace ++ "/" ++ v.Name) <;>
          by_cases hp : 0 < pods.length <;>
          simp [isSecretUsed, h1, h2, hI, hp, Effect.isRead]
  | pod p => simp [isSecretUsed]
  | ingress i => simp [isSecretUsed]
  | other k a b => simp [isSecretUsed]

/-- A trace of reads holds no write to the physical store. -/
theorem reads_no_mutation (t : List Effect) (h : ∀ e ∈ t, e.isRead = true) :
    t.filter Effect.isMutation = [] := by
  apply List.filter_eq_nil_iff.mpr
  intro e he
  have := h e he
  cases e <;> simp_all [Effect.isRead, Effect.isMutation]

/-- A trace of reads holds no `Apply`. -/
theorem reads_no_apply (t : List Effect) (h : ∀ e ∈ t, e.isRead = true) :
    t.filter Effect.isApply = [] := by
  apply List.filter_eq_nil_iff.mpr
  intro e he
  have := h e he
  cases e <;> simp_all [Effect.isRead, Effect.isApply]

/-- A trace of reads holds no event. -/
theorem reads_no_event (t : List Effect) (h : ∀ e ∈ t, e.isRead = true) :
    t.filter Effect.isEvent = [] := by
  apply List.filter_eq_nil_iff.mpr
  intro e he
  have := h e he
  cases e <;> simp_all [Effect.isRead, Effect.isEvent]

/-- The usage check writes nothing to the physical store. -/
theorem isSecretUsed_no_mutation (s : syncer) (vObj : Object) :
    (isSecretUsed s vObj).trace.filter Effect.isMutation = [] :=
  reads_no_mutation _ (isSecretUsed_reads s vObj)

/-- The usage check records no event. -/
theorem isSecretUsed_no_event (s : syncer) (vObj : Object) :
    (isSecretUsed s vObj).trace.filter Effect.isEvent = [] :=
  reads_no_event _ (isSecretUsed_reads s vObj)

/-- A secret with no referencing pod and, when ingress syncing is enabled, no
referencing ingress is reported unused, without error. -/
theorem isSecretUsed_unused (s : syncer) (secret : Secret)
    (hPods : s.virtualClient.List Kind.Pod (secret.Namespace ++ "/" ++ secret.Name) = .ok [])
    (hIngresses : s.includeIngresses = true →
      s.virtualClient.List Kind.Ingress (secret.Namespace ++ "/" ++ secret.Name) = .ok []) :
    (isSecretUsed s (Object.secret (some secret))).val = (false, none) := by
  cases hI : s.includeIngresses with
  | false => simp [isSecretUsed, hPods, hI]
  | true => simp [isSecretUsed, hPods, hIngresses hI, hI]

/-- A secret with a referencing pod, or with a referencing ingress while
ingress syncing is enabled, is reported used, without error. -/
theorem isSecretUsed_used (s : syncer) (secret : Secret) (pods : List Object)
    (hPods : s.virtualClient.List Kind.Pod (secret.Namespace ++ "/" ++ secret.Name) = .ok pods)
    (hRef : pods ≠ [] ∨ (s.includeIngresses = true ∧ ∃ ingresses,
      s.virtualClient.List Kind.Ingress (secret.Namespace ++ "/" ++ secret.Name) = .ok ingresses ∧
        ingresses ≠ [])) :
    (isSecretUsed s (Object.secret (some secret))).val = (true, none) := by
  cases pods with
  | cons p ps => simp [isSecretUsed, hPods]
  | nil =>
    rcases hRef with h | ⟨hI, ingresses, hList, hne⟩
    · exact absurd rfl h
    · cases ingresses with
      | nil => exact absurd rfl hne
      | cons i is => simp [isSecretUsed, hPods, hI, hList]

/-! ## Forward sync: properties -/

/-- C2: for a physical object `pObj` (not the nil pointer) and a virtual
secret with no referencing pod and, when ingress syncing is enabled, no
referencing ingress, `ForwardUpdate` issues exactly one write to the physical
store, the `Delete` of `pObj`, and no `Apply`; when the delete succeeds it
returns the empty result (no requeue) and no error. -/
theorem ForwardUpdate_unused_deletes (d : Deps) (s : syncer) (pObj : Object) (secret : Secret)
    (hPods : s.virtualClient.List Kind.Pod (secret.Namespace ++ "/" ++ secret.Name) = .ok [])
    (hIngresses : s.includeIngresses = true →
      s.virtualClient.List Kind.Ingress (secret.Namespace ++ "/" ++ secret.Name) = .ok [])
    (hObj : pObj ≠ Object.secret none) :
    (ForwardUpdate d s pObj (Object.secret (some secret))).trace.filter Effect.isMutation
        = [Effect.Delete pObj] ∧
      (ForwardUpdate d s pObj (Object.secret (some secret))).trace.filter Effect.isApply = [] ∧
      (s.localClient.Delete pObj = none →
        (ForwardUpdate d s pObj (Object.secret (some secret))).val
          = Outcome.ret ({ Requeue := false, RequeueAfter := 0 }, none)) := by
  have hval := isSecretUsed_unused s secret hPods hIngresses
  have hmut := isSecretUsed_no_mutation s (Object.secret (some secret))
  have happ := reads_no_apply _ (isSecretUsed_reads s (Object.secret (some secret)))
  obtain ⟨m, hm⟩ : ∃ m, Accessor pObj = some m := by
    cases pObj with
    | secret o =>
      cases o with
      | none => exact absurd rfl hObj
      | some v => exact ⟨_, rfl⟩
    | pod p => exact ⟨_, rfl⟩
    | ingress i => exact ⟨_, rfl⟩
    | other k a b => exact ⟨_, rfl⟩
  cases hDel : s.localClient.Delete pObj with
  | none =>
    simp [ForwardUpdate, hval, hm, hDel, List.filter_append, hmut, happ, Effect.isMutation,
      Effect.isApply]
  | some err =>
    simp [ForwardUpdate, hval, hm, hDel, List.filter_append, hmut, happ, Effect.isMutation,
      Effect.isApply]

/-- Witness of C2: the physical secret of `ns/db-pw` once no pod is left. -/
theorem ForwardUpdate_unused_deletes_witness :
    (ForwardUpdate exampleDeps (idleSyncer true) (Object.secret (some dbPwPhysical))
        (Object.secret (some dbPw))).trace.filter Effect.isMutation
        = [Effect.Delete (Object.secret (some dbPwPhysical))] ∧
      (ForwardUpdate exampleDeps (idleSyncer true) (Object.secret (some dbPwPhysical))
        (Object.secret (some dbPw))).trace.filter Effect.isApply = [] ∧
      ((idleSyncer true).localClient.Delete (Object.secret (some dbPwPhysical)) = none →
        (ForwardUpdate exampleDeps (idleSyncer true) (Object.secret (some dbPwPhysical))
          (Object.secret (some dbPw))).val
          = Outcome.ret ({ Requeue := false, RequeueAfter := 0 }, none)) :=
  ForwardUpdate_unused_deletes exampleDeps (idleSyncer true) (Object.secret (some dbPwPhysical))
    dbPw rfl (fun _ => rfl) (by decide)

/-- C3: for a virtual secret with no referencing pod and, when ingress
syncing is enabled, no referencing ingress, `ForwardCreate` is a no-op: it
writes nothing to the physical store (no `Apply`, no `Delete`), records no
event, and returns the empty result and no error. -/
theorem ForwardCreate_unused_noop (d : Deps) (s : syncer) (secret : Secret)
    (hPods : s.virtualClient.List Kind.Pod (secret.Namespace ++ "/" ++ secret.Name) = .ok [])
    (hIngresses : s.includeIngresses = true →
      s.virtualClient.List Kind.Ingress (secret.Namespace ++ "/" ++ secret.Name) = .ok []) :
    (ForwardCreate d s (Object.secret (some secret))).trace.filter Effect.isMutation = [] ∧
      (ForwardCreate d s (Object.secret (some secret))).trace.filter Effect.isEvent = [] ∧
      (ForwardCreate d s (Object.secret (some secret))).val
        = Outcome.ret ({ Requeue := false, RequeueAfter := 0 }, none) := by
  have hval := isSecretUsed_unused s secret hPods hIngresses
  have hmut := isSecretUsed_no_mutation s (Object.secret (some secret))
  have hev := isSecretUsed_no_event s (Object.secret (some secret))
  simp [ForwardCreate, ForwardCreateNeeded, hval, hmut, hev]

/-- Witness of C3: the secret `ns/db-pw` in a cluster without pods. -/
theorem ForwardCreate_unused_noop_witness :
    (ForwardCreate exampleDeps (idleSyncer true)
        (Object.secret (some dbPw))).trace.filter Effect.isMutation = [] ∧
      (ForwardCreate exampleDeps (idleSyncer true)
        (Object.secret (some dbPw))).trace.filter Effect.isEvent = [] ∧
      (ForwardCreate exampleDeps (idleSyncer true) (Object.secret (some dbPw))).val
        = Outcome.ret ({ Requeue := false, RequeueAfter := 0 }, none) :=
  ForwardCreate_unused_noop exampleDeps (idleSyncer true) dbPw rfl (fun _ => rfl)

/-- C4: for a virtual secret referenced by a pod, or by an ingress while
ingress syncing is enabled, if `translate` returns `t` and the apply of `t`
succeeds, then `ForwardCreate` issues exactly one write to the physical store,
the `Apply` of `t`, records no event, and returns the empty result and no
error. -/
theorem ForwardCreate_used_applies (d : Deps) (s : syncer) (secret : Secret)
    (pods : List Object) (t : Secret)
    (hPods : s.virtualClient.List Kind.Pod (secret.Namespace ++ "/" ++ secret.Name) = .ok pods)
    (hRef : pods ≠ [] ∨ (s.includeIngresses = true ∧ ∃ ingresses,
      s.virtualClient.List Kind.Ingress (secret.Namespace ++ "/" ++ secret.Name) = .ok ingresses ∧
        ingresses ≠ []))
    (hTranslate : translate d s (Object.secret (some secret)) = Outcome.ret (.ok t))
    (hApply : d.Apply s.localClient t = none) :
    (ForwardCreate d s (Object.secret (some secret))).trace.filter Effect.isMutation
        = [Effect.Apply t] ∧
      (ForwardCreate d s (Object.secret (some secret))).trace.filter Effect.isEvent = [] ∧
      (ForwardCreate d s (Object.secret (some secret))).val
        = Outcome.ret ({ Requeue := false, RequeueAfter := 0 }, none) := by
  have hval := isSecretUsed_used s secret pods hPods hRef
  have hmut := isSecretUsed_no_mutation s (Object.secret (some secret))
  have hev := isSecretUsed_no_event s (Object.secret (some secret))
  simp [ForwardCreate, ForwardCreateNeeded, hval, hTranslate, hApply, List.filter_append, hmut,
    hev, Effect.isMutation, Effect.isEvent]

/-- Witness of C4: the secret `ns/db-pw`, mounted by the pod `ns/app`, is
applied as `target-ns/db-pw-x-ns`. -/
theorem ForwardCreate_used_applies_witness :
    (ForwardCreate exampleDeps (exampleSyncer true)
        (Object.secret (some dbPw))).trace.filter Effect.isMutation
        = [Effect.Apply dbPwPhysical] ∧
      (ForwardCreate exampleDeps (exampleSyncer true)
        (Object.secret (some dbPw))).trace.filter Effect.isEvent = [] ∧
      (ForwardCreate exampleDeps (exampleSyncer true) (Object.secret (some dbPw))).val
        = Outcome.ret ({ Requeue := false, RequeueAfter := 0 }, none) :=
  ForwardCreate_used_applies exampleDeps (exampleSyncer true) dbPw [Object.pod appPod]
    dbPwPhysical rfl (Or.inl (by decide)) rfl rfl

/-- C5: when the index queries answer `pods` and `ingresses`, `translate`
returns `t` and the equality check of `pObj` and `t` answers `equal`,
`ForwardUpdateNeeded` returns no error and the boolean that is true if and
only if the secret is unused, or it is used and `equal` is false; for a used
secret with `equal` true (a converged pair) it returns false. -/
theorem ForwardUpdateNeeded_iff (d : Deps) (s : syncer) (pObj : Object) (secret : Secret)
    (pods ingresses : List Object) (t : Secret) (equal : Bool)
    (hPods : s.virtualClient.List Kind.Pod (secret.Namespace ++ "/" ++ secret.Name) = .ok pods)
    (hIngresses :
      s.virtualClient.List Kind.Ingress (secret.Namespace ++ "/" ++ secret.Name) = .ok ingresses)
    (hTranslate : translate d s (Object.secret (some secret)) = Outcome.ret (.ok t))
    (hEqual : d.AppliedObjectsEqual pObj t = .ok equal) :
    (∃ needed, (ForwardUpdateNeeded d s pObj (Object.secret (some secret))).val
          = Outcome.ret (needed, none) ∧
        (needed = true ↔
          (¬ (pods ≠ [] ∨ (s.includeIngresses = true ∧ ingresses ≠ [])) ∨
            ((pods ≠ [] ∨ (s.includeIngresses = true ∧ ingresses ≠ [])) ∧ equal = false)))) ∧
      ((pods ≠ [] ∨ (s.includeIngresses = true ∧ ingresses ≠ [])) → equal = true →
        (ForwardUpdateNeeded d s pObj (Object.secret (some secret))).val
          = Outcome.ret (false, none)) := by
  have h1 := isSecretUsed_val s secret pods ingresses hPods hIngresses
  by_cases hUsed : pods ≠ [] ∨ (s.includeIngresses = true ∧ ingresses ≠ [])
  · have hval : (isSecretUsed s (Object.secret (some secret))).val = (true, none) := by
      rw [h1]; simp [hUsed]
    constructor
    · refine ⟨equal == false, ?_, ?_⟩
      · simp [ForwardUpdateNeeded, hval, hTranslate, hEqual]
      · cases equal <;> simp [hUsed]
    · intro _ hEq
      subst hEq
      simp [ForwardUpdateNeeded, hval, hTranslate, hEqual]
  · have hval : (isSecretUsed s (Object.secret (some secret))).val = (false, none) := by
      rw [h1]; simp [hUsed]
    constructor
    · refine ⟨true, ?_, ?_⟩
      · simp [ForwardUpdateNeeded, hval]
      · simp [hUsed]
    · intro h
      exact absurd h hUsed

/-- Witness of C5: the converged pair of `ns/db-pw` and its physical secret. -/
theorem ForwardUpdateNeeded_iff_witness :
    (∃ needed, (ForwardUpdateNeeded exampleDeps (exampleSyncer true)
          (Object.secret (some dbPwPhysical)) (Object.secret (some dbPw))).val
          = Outcome.ret (needed, none) ∧
        (needed = true ↔
          (¬ ([Object.pod appPod] ≠ [] ∨
              ((exampleSyncer true).includeIngresses = true ∧ ([] : List Object) ≠ [])) ∨
            (([Object.pod appPod] ≠ [] ∨
              ((exampleSyncer true).includeIngresses = true ∧ ([] : List Object) ≠ [])) ∧
              true = false)))) ∧
      (([Object.pod appPod] ≠ [] ∨
          ((exampleSyncer true).includeIngresses = true ∧ ([] : List Object) ≠ [])) →
        true = true →
        (ForwardUpdateNeeded exampleDeps (exampleSyncer true)
          (Object.secret (some dbPwPhysical)) (Object.secret (some dbPw))).val
          = Outcome.ret (false, none)) :=
  ForwardUpdateNeeded_iff exampleDeps (exampleSyncer true) (Object.secret (some dbPwPhysical))
    dbPw [Object.pod appPod] [] dbPwPhysical true rfl rfl rfl rfl

/-- Counterexample to C6 as stated: the secret `ns/db-pw` is used and its
physical counterpart `target-ns/db-pw-x-ns` exists, yet `ForwardCreateNeeded`
returns true. -/
theorem ForwardCreateNeeded_true_with_counterpart :
    physicalCounterpart exampleDeps (exampleSyncer true) (Object.secret (some dbPw))
        = some (Object.secret (some dbPwPhysical)) ∧
      (ForwardCreateNeeded (exampleSyncer true) (Object.secret (some dbPw))).val = (true, none) ∧
      ¬ ((ForwardCreateNeeded (exampleSyncer true) (Object.secret (some dbPw))).val.1 = true ↔
        ((isSecretUsed (exampleSyncer true) (Object.secret (some dbPw))).val.1 = true ∧
          physicalCounterpart exampleDeps (exampleSyncer true) (Object.secret (some dbPw))
            = none)) := by
  have h1 : physicalCounterpart exampleDeps (exampleSyncer true) (Object.secret (some dbPw))
      = some (Object.secret (some dbPwPhysical)) := by decide
  have h2 : (ForwardCreateNeeded (exampleSyncer true) (Object.secret (some dbPw))).val
      = (true, none) := by decide
  refine ⟨h1, h2, ?_⟩
  rw [h1, h2]
  simp

/-- C6, amended: `ForwardCreateNeeded` does not look at the physical store
(its answer is the same for every local client); it returns `(true, nil)` if
and only if the pod query succeeds and either finds a pod or, with ingress
syncing enabled, the ingress query succeeds and finds an ingress; for an
unused secret it returns `(false, nil)`. -/
theorem ForwardCreateNeeded_usage_only (s : syncer) (secret : Secret) (c : Client) :
    ForwardCreateNeeded { s with localClient := c } (Object.secret (some secret))
        = ForwardCreateNeeded s (Object.secret (some secret)) ∧
      ((ForwardCreateNeeded s (Object.secret (some secret))).val = (true, none) ↔
        ∃ pods, s.virtualClient.List Kind.Pod (secret.Namespace ++ "/" ++ secret.Name) = .ok pods ∧
          (pods ≠ [] ∨ (s.includeIngresses = true ∧ ∃ ingresses,
            s.virtualClient.List Kind.Ingress (secret.Namespace ++ "/" ++ secret.Name)
              = .ok ingresses ∧ ingresses ≠ []))) ∧
      (s.virtualClient.List Kind.Pod (secret.Namespace ++ "/" ++ secret.Name) = .ok [] →
        (s.includeIngresses = true →
          s.virtualClient.List Kind.Ingress (secret.Namespace ++ "/" ++ secret.Name) = .ok []) →
        (ForwardCreateNeeded s (Object.secret (some secret))).val = (false, none)) := by
  refine ⟨rfl, ⟨?_, ?_⟩, ?_⟩
  · intro h
    simp only [ForwardCreateNeeded] at h
    cases h1 : s.virtualClient.List Kind.Pod (secret.Namespace ++ "/" ++ secret.Name) with
    | error e => simp [isSecretUsed, h1] at h
    | ok pods =>
      refine ⟨pods, rfl, ?_⟩
      cases pods with
      | cons p ps => exact Or.inl (by simp)
      | nil =>
        right
        cases hI : s.includeIngresses with
        | false => simp [isSecretUsed, h1, hI] at h
        | true =>
          refine ⟨rfl, ?_⟩
          cases h2 : s.virtualClient.List Kind.Ingress (secret.Namespace ++ "/" ++ secret.Name) with
          | error e => simp [isSecretUsed, h1, hI, h2] at h
          | ok ingresses =>
            refine ⟨ingresses, rfl, ?_⟩
            cases ingresses with
            | nil => simp [isSecretUsed, h1, hI, h2] at h
            | cons i is => simp
  · rintro ⟨pods, hPods, hRef⟩
    exact isSecretUsed_used s secret pods hPods hRef
  · intro hPods hIngresses
    exact isSecretUsed_unused s secret hPods hIngresses

/-- Witness of C6, amended: the unused secret `ns/db-pw` of an empty virtual
store, whose physical counterpart exists. -/
theorem ForwardCreateNeeded_usage_only_witness :
    (ForwardCreateNeeded (idleSyncer true) (Object.secret (some dbPw))).val = (false, none) :=
  (ForwardCreateNeeded_usage_only (idleSyncer true) dbPw (idleSyncer true).localClient).2.2
    rfl (fun _ => rfl)

/-! ## The translator: properties -/

/-- C7: when `translate` succeeds with the secret `t`, the type of `t` is not
the service-account-token type; and when the secret `m` produced by the
metadata setup has the service-account-token type, the type of `t` is
`SecretTypeOpaque`. -/
theorem translate_never_token (d : Deps) (s : syncer) (vObj : Object) (t : Secret)
    (h : translate d s vObj = Outcome.ret (.ok t)) :
    t.Type_ ≠ SecretTypeServiceAccountToken ∧
      (∀ m, d.SetupMetadata s.targetNamespace vObj = .ok (Object.secret (some m)) →
        m.Type_ = SecretTypeServiceAccountToken → t.Type_ = SecretTypeOpaque) := by
  have hne : SecretTypeOpaque ≠ SecretTypeServiceAccountToken := by decide
  cases hS : d.SetupMetadata s.targetNamespace vObj with
  | error e => simp [translate, hS] at h
  | ok newObj =>
    cases newObj with
    | secret o =>
      cases o with
      | none => simp [translate, hS] at h
      | some m =>
        by_cases hT : m.Type_ = SecretTypeServiceAccountToken
        · simp [translate, hS, hT] at h
          subst h
          exact ⟨hne, fun _ _ _ => rfl⟩
        · simp [translate, hS, hT] at h
          subst h
          refine ⟨hT, ?_⟩
          intro m' hm' hT'
          simp at hm'
          subst hm'
          exact absurd hT' hT
    | pod p => simp [translate, hS] at h
    | ingress i => simp [translate, hS] at h
    | other k a b => simp [translate, hS] at h

/-- Witness of C7: the service-account token `ns/sa-token` is mirrored as an
opaque secret. -/
theorem translate_never_token_witness :
    saTokenPhysical.Type_ ≠ SecretTypeServiceAccountToken ∧
      (∀ m, exampleDeps.SetupMetadata (exampleSyncer true).targetNamespace
          (Object.secret (some saToken)) = .ok (Object.secret (some m)) →
        m.Type_ = SecretTypeServiceAccountToken → saTokenPhysical.Type_ = SecretTypeOpaque) :=
  translate_never_token exampleDeps (exampleSyncer true) (Object.secret (some saToken))
    saTokenPhysical rfl

/-! ## Splitting: properties -/

/-- Splitting yields at least one part. -/
theorem splitChars_ne_nil (sep : Char) (l : List Char) : splitChars sep l ≠ [] := by
  cases l with
  | nil => simp [splitChars]
  | cons c cs =>
    by_cases hc : c = sep
    · simp [splitChars, hc]
    · cases hs : splitChars sep cs <;> simp [splitChars, hc, hs]

/-- A list that splits into one part is that part and holds no separator. -/
theorem splitChars_single (sep : Char) :
    ∀ (l b : List Char), splitChars sep l = [b] → l = b ∧ sep ∉ b
  | [], b, h => by
    simp [splitChars] at h
    subst h
    simp
  | c :: cs, b, h => by
    by_cases hc : c = sep
    · simp [splitChars, hc] at h
      exact absurd h.2 (splitChars_ne_nil sep cs)
    · cases hs : splitChars sep cs with
      | nil => exact absurd hs (splitChars_ne_nil sep cs)
      | cons w ws =>
        simp [splitChars, hc, hs] at h
        obtain ⟨hb, hws⟩ := h
        subst hb hws
        obtain ⟨h1, h2⟩ := splitChars_single sep cs w hs
        subst h1
        refine ⟨rfl, ?_⟩
        intro hmem
        rcases List.mem_cons.mp hmem with h3 | h3
        · exact hc h3.symm
        · exact h2 h3

/-- A list that splits into two parts is the first part, the separator and
the second part, and neither part holds a separator. -/
theorem splitChars_pair (sep : Char) :
    ∀ (l a b : List Char), splitChars sep l = [a, b] → l = a ++ sep :: b ∧ sep ∉ a ∧ sep ∉ b
  | [], a, b, h => by simp [splitChars] at h
  | c :: cs, a, b, h => by
    by_cases hc : c = sep
    · simp [splitChars, hc] at h
      obtain ⟨ha, hcs⟩ := h
      subst ha
      obtain ⟨h1, h2⟩ := splitChars_single sep cs b hcs
      subst h1
      simp [hc, h2]
    · cases hs : splitChars sep cs with
      | nil => exact absurd hs (splitChars_ne_nil sep cs)
      | cons w ws =>
        simp [splitChars, hc, hs] at h
        obtain ⟨ha, hws⟩ := h
        subst ha hws
        obtain ⟨h1, h2, h3⟩ := splitChars_pair sep cs w b hs
        refine ⟨by rw [h1]; rfl, ?_, h3⟩
        intro hmem
        rcases List.mem_cons.mp hmem with h4 | h4
        · exact hc h4.symm
        · exact h2 h4

/-- A string that splits on `/` into the two parts `ns` and `n` is
`ns + "/" + n`, and neither part holds a `/`. -/
theorem Split_pair (name ns n : String) (h : Split name '/' = [ns, n]) :
    name = ns ++ "/" ++ n ∧ '/' ∉ ns.data ∧ '/' ∉ n.data := by
  unfold Split at h
  cases hs : splitChars '/' name.data with
  | nil => exact absurd hs (splitChars_ne_nil _ _)
  | cons a rest =>
    cases rest with
    | nil => simp [hs] at h
    | cons b rest2 =>
      cases rest2 with
      | cons c rest3 => simp [hs] at h
      | nil =>
        simp [hs] at h
        obtain ⟨ha, hb⟩ := h
        subst ha hb
        obtain ⟨h1, h2, h3⟩ := splitChars_pair '/' name.data a b hs
        refine ⟨?_, h2, h3⟩
        apply String.ext
        simp [String.data_append, h1]

/-! ## The reference router: properties -/

/-- A reference string has the request `r` exactly when it splits on `/` into
the namespace and the name of `r`. -/
theorem requestOf_eq_some (name : String) (r : Request) :
    requestOf name = some r ↔
      Split name '/' = [r.NamespacedName.Namespace, r.NamespacedName.Name] := by
  unfold requestOf
  rcases hs : Split name '/' with _ | ⟨a, _ | ⟨b, _ | ⟨c, rest⟩⟩⟩
  · simp
  · simp
  · obtain ⟨⟨ns, n⟩⟩ := r
    simp
  · simp

/-- One turn of the loop appends the request of the reference string, if it
has one. -/
theorem appendRequest_eq (requests : List Request) (name : String) :
    appendRequest requests name = requests ++ (requestOf name).toList := by
  unfold appendRequest requestOf
  rcases hs : Split name '/' with _ | ⟨a, _ | ⟨b, _ | ⟨c, rest⟩⟩⟩ <;> simp

/-- The loop appends to the requests gathered so far the requests of the
reference strings, in order. -/
theorem foldl_appendRequest (names : List String) :
    ∀ requests : List Request,
      names.foldl appendRequest requests = requests ++ names.filterMap requestOf := by
  induction names with
  | nil => intro requests; simp
  | cons name names ih =>
    intro requests
    rw [List.foldl_cons, ih, appendRequest_eq]
    cases h : requestOf name <;> simp [List.filterMap_cons, h]

/-- C8: for every pod, `mapPods` returns the requests of the extracted
reference strings, in extraction order: one request for each string that
splits on `/` into exactly two parts, with the first part as `Namespace` and
the second as `Name`, and nothing for any other string; the same holds of
`mapIngresses` for every ingress.  Both are total functions into lists of
requests: no error is raised and no string makes the others be lost. -/
theorem mapPods_mapIngresses_eq (d : Deps) (pod : Pod) (ingress : Ingress) :
    mapPods d (Object.pod pod) = (d.SecretNamesFromPod pod).filterMap requestOf ∧
      mapIngresses d (Object.ingress ingress)
        = (d.SecretNamesFromIngress ingress).filterMap requestOf ∧
      (∀ name : String, ∀ r : Request, requestOf name = some r ↔
        Split name '/' = [r.NamespacedName.Namespace, r.NamespacedName.Name]) := by
  refine ⟨?_, ?_, ?_⟩
  · simp [mapPods, foldl_appendRequest]
  · simp [mapIngresses, foldl_appendRequest]
  · intro name r
    exact requestOf_eq_some name r

/-- Counterexample to C9 as stated: the pod index function that `Register`
registers returns, for the pod `ns/app2` with the secret volume `a/b`, the key
`ns/a/b`, which splits on `/` into three parts. -/
theorem indexPodBySecret_keeps_malformed :
    (Register exampleDeps exampleContext).indexes.head?.map
        (fun kf => (kf.1, kf.2 (Object.pod slashPod)))
        = some (Kind.Pod, Outcome.ret ["ns/a/b"]) ∧
      indexPodBySecret exampleDeps (Object.pod slashPod) = Outcome.ret ["ns/a/b"] ∧
      Split "ns/a/b" '/' = ["ns", "a", "b"] ∧
      mapPods exampleDeps (Object.pod slashPod) = [] := by
  refine ⟨by decide, by decide, by decide, by decide⟩

/-- C9, amended: the index functions `Register` registers are
`indexPodBySecret` for pods and the ingress index function for ingresses, and
each returns the extracted reference strings as they are, none dropped; so
the keys of an object all split on `/` into two parts if and only if its
extracted strings all do. -/
theorem Register_indexes_unfiltered (d : Deps) (ctx : ControllerContext) (pod : Pod)
    (ingress : Ingress) :
    (∀ kf ∈ (Register d ctx).indexes,
        kf = (Kind.Pod, indexPodBySecret d) ∨ kf = (Kind.Ingress, indexIngressBySecret d)) ∧
      indexPodBySecret d (Object.pod pod) = Outcome.ret (d.SecretNamesFromPod pod) ∧
      indexIngressBySecret d (Object.ingress ingress)
        = Outcome.ret (d.SecretNamesFromIngress ingress) ∧
      ((∀ keys, indexPodBySecret d (Object.pod pod) = Outcome.ret keys →
          ∀ key ∈ keys, (Split key '/').length = 2) ↔
        ∀ name ∈ d.SecretNamesFromPod pod, (Split name '/').length = 2) ∧
      ((∀ keys, indexIngressBySecret d (Object.ingress ingress) = Outcome.ret keys →
          ∀ key ∈ keys, (Split key '/').length = 2) ↔
        ∀ name ∈ d.SecretNamesFromIngress ingress, (Split name '/').length = 2) := by
  refine ⟨?_, rfl, rfl, ?_, ?_⟩
  · intro kf hkf
    unfold Register at hkf
    cases h1 : ctx.IndexField Kind.Pod with
    | some e => simp [h1] at hkf
    | none =>
      cases hC : (Contains ctx.DisableSyncResources "ingresses" == false) with
      | false =>
        simp [h1, hC] at hkf
        exact Or.inl hkf
      | true =>
        cases h2 : ctx.IndexField Kind.Ingress with
        | some e =>
          simp [h1, hC, h2] at hkf
          exact Or.inl hkf
        | none =>
          simp [h1, hC, h2] at hkf
          rcases hkf with h | h
          · exact Or.inl h
          · exact Or.inr h
  · constructor
    · intro h name hname
      exact h _ rfl name hname
    · intro h keys hkeys key hkey
      simp [indexPodBySecret] at hkeys
      subst hkeys
      exact h key hkey
  · constructor
    · intro h name hname
      exact h _ rfl name hname
    · intro h keys hkeys key hkey
      simp [indexIngressBySecret] at hkeys
      subst hkeys
      exact h key hkey

/-- Counterexample to C10 as stated: for the pod `ns/app3` and the ingress
`ns/web2`, whose extracted reference string is `ns/`, the request emitted has
the empty `Name`. -/
theorem mapPods_empty_name :
    exampleDeps.SecretNamesFromPod emptyNamePod = ["ns/"] ∧
      mapPods exampleDeps (Object.pod emptyNamePod)
        = [{ NamespacedName := { Namespace := "ns", Name := "" } }] ∧
      mapIngresses exampleDeps (Object.ingress emptyNameIngress)
        = [{ NamespacedName := { Namespace := "ns", Name := "" } }] ∧
      ¬ (∀ r ∈ mapPods exampleDeps (Object.pod emptyNamePod),
        r.NamespacedName.Namespace ≠ "" ∧ r.NamespacedName.Name ≠ "") := by
  refine ⟨by decide, by decide, by decide, by decide⟩

/-- A character list made of a part without `/`, a `/` and a second part
without `/` begins with `/` exactly when the first part is empty, and ends
with `/` exactly when the second part is empty. -/
theorem head_getLast_of_parts (a b : List Char) (ha : '/' ∉ a) (hb : '/' ∉ b) :
    ((a ++ '/' :: b).head? = some '/' ↔ a = []) ∧
      ((a ++ '/' :: b).getLast? = some '/' ↔ b = []) := by
  constructor
  · cases a with
    | nil => simp
    | cons x xs =>
      simp
      intro hx
      exact ha (by simp [hx])
  · cases hb' : b.getLast? with
    | none =>
      have : b = [] := List.getLast?_eq_none_iff.mp hb'
      subst this
      simp
    | some y =>
      have hy : y ∈ b := List.mem_of_getLast?_eq_some hb'
      have hne : b ≠ [] := List.ne_nil_of_mem hy
      have : (a ++ '/' :: b).getLast? = some y := by
        rw [show a ++ '/' :: b = (a ++ ['/']) ++ b by simp]
        rw [List.getLast?_append, hb']
        simp
      rw [this]
      simp [hne]
      intro hy'
      exact hb (hy' ▸ hy)

/-- C10, amended: every reconcile request emitted by `mapPods` or
`mapIngresses` comes from an extracted reference string equal to
`Namespace + "/" + Name`, and neither its `Namespace` nor its `Name` holds a
`/`; the two are both non-empty exactly when that string neither begins nor
ends with `/` (the number of parts is checked, not that they are
non-empty). -/
theorem request_parts (d : Deps) (obj : Object) (r : Request)
    (h : r ∈ mapPods d obj ∨ r ∈ mapIngresses d obj) :
    ∃ name : String,
      ((∃ pod, obj = Object.pod pod ∧ name ∈ d.SecretNamesFromPod pod) ∨
        (∃ ingress, obj = Object.ingress ingress ∧ name ∈ d.SecretNamesFromIngress ingress)) ∧
      name = r.NamespacedName.Namespace ++ "/" ++ r.NamespacedName.Name ∧
      '/' ∉ r.NamespacedName.Namespace.data ∧ '/' ∉ r.NamespacedName.Name.data ∧
      ((r.NamespacedName.Namespace ≠ "" ∧ r.NamespacedName.Name ≠ "") ↔
        (name.data.head? ≠ some '/' ∧ name.data.getLast? ≠ some '/')) := by
  have key : ∀ names : List String, r ∈ names.filterMap requestOf →
      ∃ name : String, name ∈ names ∧
        name = r.NamespacedName.Namespace ++ "/" ++ r.NamespacedName.Name ∧
        '/' ∉ r.NamespacedName.Namespace.data ∧ '/' ∉ r.NamespacedName.Name.data ∧
        ((r.NamespacedName.Namespace ≠ "" ∧ r.NamespacedName.Name ≠ "") ↔
          (name.data.head? ≠ some '/' ∧ name.data.getLast? ≠ some '/')) := by
    intro names hr
    obtain ⟨name, hname, hreq⟩ := List.mem_filterMap.mp hr
    obtain ⟨h1, h2, h3⟩ := Split_pair name _ _ ((requestOf_eq_some name r).mp hreq)
    refine ⟨name, hname, h1, h2, h3, ?_⟩
    have hdata : name.data
        = r.NamespacedName.Namespace.data ++ '/' :: r.NamespacedName.Name.data := by
      rw [h1]; simp [String.data_append]
    obtain ⟨g1, g2⟩ := head_getLast_of_parts _ _ h2 h3
    rw [hdata, g1.ne, g2.ne]
    have e1 : ∀ t : String, t ≠ "" ↔ t.data ≠ [] := by
      intro t
      constructor
      · intro ht hd; exact ht (String.ext hd)
      · intro ht hd; exact ht (by rw [hd])
    rw [e1, e1]
  cases obj with
  | pod pod =>
    rcases h with h | h
    · simp only [mapPods, foldl_appendRequest, List.nil_append] at h
      obtain ⟨name, hname, rest⟩ := key _ h
      exact ⟨name, Or.inl ⟨pod, rfl, hname⟩, rest⟩
    · simp [mapIngresses] at h
  | ingress ingress =>
    rcases h with h | h
    · simp [mapPods] at h
    · simp only [mapIngresses, foldl_appendRequest, List.nil_append] at h
      obtain ⟨name, hname, rest⟩ := key _ h
      exact ⟨name, Or.inr ⟨ingress, rfl, hname⟩, rest⟩
  | secret o => simp [mapPods, mapIngresses] at h
  | other k a b => simp [mapPods, mapIngresses] at h

/-- Witness of C10, amended: the request `ns/db-pw` that the pod `ns/app`
gives rise to. -/
theorem request_parts_witness :
    ∃ name : String,
      ((∃ pod, Object.pod appPod = Object.pod pod ∧ name ∈ exampleDeps.SecretNamesFromPod pod) ∨
        (∃ ingress, Object.pod appPod = Object.ingress ingress ∧
          name ∈ exampleDeps.SecretNamesFromIngress ingress)) ∧
      name = "ns" ++ "/" ++ "db-pw" ∧
      '/' ∉ "ns".data ∧ '/' ∉ "db-pw".data ∧
      (("ns" ≠ "" ∧ "db-pw" ≠ "") ↔
        (name.data.head? ≠ some '/' ∧ name.data.getLast? ≠ some '/')) :=
  request_parts exampleDeps (Object.pod appPod)
    { NamespacedName := { Namespace := "ns", Name := "db-pw" } } (Or.inl (by decide))

/-! ## Forward sync: failures -/

/-- C11: for a used virtual secret for which `translate` returns `t`, if the
apply of `t` fails with the error `e` then `ForwardCreate` records exactly
one event, a `Warning` with reason `SyncError` attached to the virtual
secret, returns a result that asks for a requeue after `time.Second` (one
second, 1000000000 ns), and returns `e`; the apply is the only write it
issued. -/
theorem ForwardCreate_apply_fails (d : Deps) (s : syncer) (secret : Secret)
    (pods : List Object) (t : Secret) (e : Err)
    (hPods : s.virtualClient.List Kind.Pod (secret.Namespace ++ "/" ++ secret.Name) = .ok pods)
    (hRef : pods ≠ [] ∨ (s.includeIngresses = true ∧ ∃ ingresses,
      s.virtualClient.List Kind.Ingress (secret.Namespace ++ "/" ++ secret.Name) = .ok ingresses ∧
        ingresses ≠ []))
    (hTranslate : translate d s (Object.secret (some secret)) = Outcome.ret (.ok t))
    (hApply : d.Apply s.localClient t = some e) :
    (ForwardCreate d s (Object.secret (some secret))).trace.filter Effect.isEvent
        = [Effect.Eventf secret "Warning" "SyncError" "Error syncing to physical cluster: %v" e] ∧
      (ForwardCreate d s (Object.secret (some secret))).val
        = Outcome.ret ({ Requeue := false, RequeueAfter := Second }, some e) ∧
      Second = 1000000000 ∧
      (ForwardCreate d s (Object.secret (some secret))).trace.filter Effect.isMutation
        = [Effect.Apply t] := by
  have hval := isSecretUsed_used s secret pods hPods hRef
  have hmut := isSecretUsed_no_mutation s (Object.secret (some secret))
  have hev := isSecretUsed_no_event s (Object.secret (some secret))
  simp [ForwardCreate, ForwardCreateNeeded, hval, hTranslate, hApply, List.filter_append, hmut,
    hev, Effect.isMutation, Effect.isEvent, Second]

/-- Witness of C11: the apply of the physical secret of `ns/db-pw` hits a
conflict. -/
theorem ForwardCreate_apply_fails_witness :
    (ForwardCreate conflictDeps (exampleSyncer true)
        (Object.secret (some dbPw))).trace.filter Effect.isEvent
        = [Effect.Eventf dbPw "Warning" "SyncError" "Error syncing to physical cluster: %v"
            (Err.ext "conflict")] ∧
      (ForwardCreate conflictDeps (exampleSyncer true) (Object.secret (some dbPw))).val
        = Outcome.ret ({ Requeue := false, RequeueAfter := Second }, some (Err.ext "conflict")) ∧
      Second = 1000000000 ∧
      (ForwardCreate conflictDeps (exampleSyncer true)
        (Object.secret (some dbPw))).trace.filter Effect.isMutation
        = [Effect.Apply dbPwPhysical] :=
  ForwardCreate_apply_fails conflictDeps (exampleSyncer true) dbPw [Object.pod appPod]
    dbPwPhysical (Err.ext "conflict") rfl (Or.inl (by decide)) rfl rfl

/-- C12, the code at the failing input: the delete of the physical secret of
the unused `ns/db-pw` fails; `ForwardUpdate` logs the failure and returns the
error with the empty result, whose `RequeueAfter` is zero, and records no
event, unlike `ForwardCreate` on a failed apply. -/
theorem ForwardUpdate_delete_fails_no_event :
    (ForwardUpdate exampleDeps (stuckSyncer true) (Object.secret (some dbPwPhysical))
        (Object.secret (some dbPw))).val
        = Outcome.ret ({ Requeue := false, RequeueAfter := 0 }, some (Err.ext "unavailable")) ∧
      (ForwardUpdate exampleDeps (stuckSyncer true) (Object.secret (some dbPwPhysical))
        (Object.secret (some dbPw))).trace
        = [Effect.List Kind.Pod "ns/db-pw", Effect.List Kind.Ingress "ns/db-pw",
            Effect.Debugf "delete physical secret %s/%s, because it is not used anymore"
              ["target-ns", "db-pw-x-ns"],
            Effect.Delete (Object.secret (some dbPwPhysical)),
            Effect.Infof "error deleting physical object %s/%s in physical cluster: %v"
              ["target-ns", "db-pw-x-ns"] (Err.ext "unavailable")] ∧
      (ForwardUpdate exampleDeps (stuckSyncer true) (Object.secret (some dbPwPhysical))
        (Object.secret (some dbPw))).trace.filter Effect.isEvent = [] := by
  refine ⟨by decide, by decide, by decide⟩

/-- What `ForwardUpdate` does on a failed delete, in general: for an unused
virtual secret and a physical object `pObj` (not the nil pointer), if the
delete of `pObj` fails with the error `e` then `ForwardUpdate` returns `e`
together with the empty result (no requeue delay), records no event, logs the
failure, and has issued the delete as its only write. -/
theorem ForwardUpdate_delete_fails (d : Deps) (s : syncer) (pObj : Object) (secret : Secret)
    (e : Err)
    (hPods : s.virtualClient.List Kind.Pod (secret.Namespace ++ "/" ++ secret.Name) = .ok [])
    (hIngresses : s.includeIngresses = true →
      s.virtualClient.List Kind.Ingress (secret.Namespace ++ "/" ++ secret.Name) = .ok [])
    (hObj : pObj ≠ Object.secret none)
    (hDelete : s.localClient.Delete pObj = some e) :
    (ForwardUpdate d s pObj (Object.secret (some secret))).val
        = Outcome.ret ({ Requeue := false, RequeueAfter := 0 }, some e) ∧
      (ForwardUpdate d s pObj (Object.secret (some secret))).trace.filter Effect.isEvent = [] ∧
      (ForwardUpdate d s pObj (Object.secret (some secret))).trace.filter Effect.isMutation
        = [Effect.Delete pObj] ∧
      (∃ ns name, Accessor pObj = some (ns, name) ∧
        (ForwardUpdate d s pObj (Object.secret (some secret))).trace.getLast?
          = some (Effect.Infof "error deleting physical object %s/%s in physical cluster: %v"
              [ns, name] e)) := by
  have hval := isSecretUsed_unused s secret hPods hIngresses
  have hmut := isSecretUsed_no_mutation s (Object.secret (some secret))
  have hev := isSecretUsed_no_event s (Object.secret (some secret))
  obtain ⟨m, hm⟩ : ∃ m, Accessor pObj = some m := by
    cases pObj with
    | secret o =>
      cases o with
      | none => exact absurd rfl hObj
      | some v => exact ⟨_, rfl⟩
    | pod p => exact ⟨_, rfl⟩
    | ingress i => exact ⟨_, rfl⟩
    | other k a b => exact ⟨_, rfl⟩
  obtain ⟨ns, name⟩ := m
  refine ⟨?_, ?_, ?_, ns, name, hm, ?_⟩
  · simp [ForwardUpdate, hval, hm, hDelete]
  · simp [ForwardUpdate, hval, hm, hDelete, List.filter_append, hev, Effect.isEvent]
  · simp [ForwardUpdate, hval, hm, hDelete, List.filter_append, hmut, Effect.isMutation]
  · simp [ForwardUpdate, hval, hm, hDelete]

/-- An instance of `ForwardUpdate_delete_fails`: the refused delete of
`target-ns/db-pw-x-ns`. -/
theorem ForwardUpdate_delete_fails_witness :
    (ForwardUpdate exampleDeps (stuckSyncer true) (Object.secret (some dbPwPhysical))
        (Object.secret (some dbPw))).val
        = Outcome.ret ({ Requeue := false, RequeueAfter := 0 }, some (Err.ext "unavailable")) ∧
      (ForwardUpdate exampleDeps (stuckSyncer true) (Object.secret (some dbPwPhysical))
        (Object.secret (some dbPw))).trace.filter Effect.isEvent = [] ∧
      (ForwardUpdate exampleDeps (stuckSyncer true) (Object.secret (some dbPwPhysical))
        (Object.secret (some dbPw))).trace.filter Effect.isMutation
        = [Effect.Delete (Object.secret (some dbPwPhysical))] ∧
      (∃ ns name, Accessor (Object.secret (some dbPwPhysical)) = some (ns, name) ∧
        (ForwardUpdate exampleDeps (stuckSyncer true) (Object.secret (some dbPwPhysical))
          (Object.secret (some dbPw))).trace.getLast?
          = some (Effect.Infof "error deleting physical object %s/%s in physical cluster: %v"
              [ns, name] (Err.ext "unavailable"))) :=
  ForwardUpdate_delete_fails exampleDeps (stuckSyncer true) (Object.secret (some dbPwPhysical))
    dbPw (Err.ext "unavailable") rfl (fun _ => rfl) (by decide) rfl

/-- C13: for every virtual object, when the call reaches the translation
(the usage check has returned `(true, nil)`) and the metadata setup returns
the error `e`, so that `translate` fails, `ForwardCreate` and `ForwardUpdate`
issue no `Apply` and no `Delete`, record no event, and return the empty
result (no requeue) with the error of `translate`; `ForwardUpdateNeeded`
returns false with that error. -/
theorem translate_error_aborts (d : Deps) (s : syncer) (pObj : Object) (vObj : Object)
    (e : Err)
    (hUsed : (isSecretUsed s vObj).val = (true, none))
    (hSetup : d.SetupMetadata s.targetNamespace vObj = .error e) :
    translate d s vObj = Outcome.ret (.error (Err.wrap e "error setting metadata")) ∧
      (ForwardCreate d s vObj).val
        = Outcome.ret ({ Requeue := false, RequeueAfter := 0 },
            some (Err.wrap e "error setting metadata")) ∧
      (ForwardCreate d s vObj).trace.filter Effect.isMutation = [] ∧
      (ForwardUpdate d s pObj vObj).val
        = Outcome.ret ({ Requeue := false, RequeueAfter := 0 },
            some (Err.wrap e "error setting metadata")) ∧
      (ForwardUpdate d s pObj vObj).trace.filter Effect.isMutation = [] ∧
      (ForwardUpdate d s pObj vObj).trace.filter Effect.isEvent = [] ∧
      (ForwardUpdateNeeded d s pObj vObj).val
        = Outcome.ret (false, some (Err.wrap e "error setting metadata")) := by
  have hmut := isSecretUsed_no_mutation s vObj
  have hev := isSecretUsed_no_event s vObj
  have hT : translate d s vObj
      = Outcome.ret (.error (Err.wrap e "error setting metadata")) := by
    simp [translate, hSetup]
  obtain ⟨o, rfl⟩ : ∃ o, vObj = Object.secret o := by
    cases vObj with
    | secret o => exact ⟨o, rfl⟩
    | pod p => simp [isSecretUsed] at hUsed
    | ingress i => simp [isSecretUsed] at hUsed
    | other k a b => simp [isSecretUsed] at hUsed
  refine ⟨hT, ?_, ?_, ?_, ?_, ?_, ?_⟩
  · simp [ForwardCreate, ForwardCreateNeeded, hUsed, hT]
  · simp [ForwardCreate, ForwardCreateNeeded, hUsed, hT, hmut]
  · simp [ForwardUpdate, ForwardCreate, ForwardCreateNeeded, hUsed, hT]
  · simp [ForwardUpdate, ForwardCreate, ForwardCreateNeeded, hUsed, hT, hmut]
  · simp [ForwardUpdate, ForwardCreate, ForwardCreateNeeded, hUsed, hT, hev]
  · simp [ForwardUpdateNeeded, hUsed, hT]

/-- Witness of C13: the used secret `ns/db-pw` under a metadata setup that
fails. -/
theorem translate_error_aborts_witness :
    translate brokenSetupDeps (exampleSyncer true) (Object.secret (some dbPw))
        = Outcome.ret (.error (Err.wrap (Err.ext "no metadata") "error setting metadata")) ∧
      (ForwardCreate brokenSetupDeps (exampleSyncer true) (Object.secret (some dbPw))).val
        = Outcome.ret ({ Requeue := false, RequeueAfter := 0 },
            some (Err.wrap (Err.ext "no metadata") "error setting metadata")) ∧
      (ForwardCreate brokenSetupDeps (exampleSyncer true)
        (Object.secret (some dbPw))).trace.filter Effect.isMutation = [] ∧
      (ForwardUpdate brokenSetupDeps (exampleSyncer true) (Object.secret (some dbPwPhysical))
        (Object.secret (some dbPw))).val
        = Outcome.ret ({ Requeue := false, RequeueAfter := 0 },
            some (Err.wrap (Err.ext "no metadata") "error setting metadata")) ∧
      (ForwardUpdate brokenSetupDeps (exampleSyncer true) (Object.secret (some dbPwPhysical))
        (Object.secret (some dbPw))).trace.filter Effect.isMutation = [] ∧
      (ForwardUpdate brokenSetupDeps (exampleSyncer true) (Object.secret (some dbPwPhysical))
        (Object.secret (some dbPw))).trace.filter Effect.isEvent = [] ∧
      (ForwardUpdateNeeded brokenSetupDeps (exampleSyncer true)
        (Object.secret (some dbPwPhysical)) (Object.secret (some dbPw))).val
        = Outcome.ret (false, some (Err.wrap (Err.ext "no metadata") "error setting metadata")) :=
  translate_error_aborts brokenSetupDeps (exampleSyncer true) (Object.secret (some dbPwPhysical))
    (Object.secret (some dbPw)) (Err.ext "no metadata") (by decide) rfl

/-- C14: for a virtual object that is not a non-nil secret (another kind, or
the nil secret pointer), `ForwardCreateNeeded`, `ForwardCreate`,
`ForwardUpdate` and `ForwardUpdateNeeded` return the error of `isSecretUsed`
and do not panic, with an empty trace: no index query, no write to the
physical store, no event. -/
theorem non_secret_rejected (d : Deps) (s : syncer) (pObj : Object) (vObj : Object)
    (h : ∀ secret : Secret, vObj ≠ Object.secret (some secret)) :
    isSecretUsed s vObj = ⟨(false, some (Err.notASecret vObj)), []⟩ ∧
      ForwardCreateNeeded s vObj = ⟨(false, some (Err.notASecret vObj)), []⟩ ∧
      ForwardCreate d s vObj
        = ⟨Outcome.ret ({ Requeue := false, RequeueAfter := 0 }, some (Err.notASecret vObj)), []⟩ ∧
      ForwardUpdate d s pObj vObj
        = ⟨Outcome.ret ({ Requeue := false, RequeueAfter := 0 }, some (Err.notASecret vObj)), []⟩ ∧
      ForwardUpdateNeeded d s pObj vObj
        = ⟨Outcome.ret (false, some (Err.notASecret vObj)), []⟩ := by
  have hU : isSecretUsed s vObj = ⟨(false, some (Err.notASecret vObj)), []⟩ := by
    cases vObj with
    | secret o =>
      cases o with
      | none => rfl
      | some v => exact absurd rfl (h v)
    | pod p => rfl
    | ingress i => rfl
    | other k a b => rfl
  refine ⟨hU, ?_, ?_, ?_, ?_⟩
  · simp [ForwardCreateNeeded, hU]
  · simp [ForwardCreate, ForwardCreateNeeded, hU]
  · simp [ForwardUpdate, hU]
  · simp [ForwardUpdateNeeded, hU]

/-- Witness of C14: the nil secret pointer as virtual object, even with the
nil pointer as physical object. -/
theorem non_secret_rejected_witness :
    isSecretUsed (exampleSyncer true) (Object.secret none)
        = ⟨(false, some (Err.notASecret (Object.secret none))), []⟩ ∧
      ForwardCreateNeeded (exampleSyncer true) (Object.secret none)
        = ⟨(false, some (Err.notASecret (Object.secret none))), []⟩ ∧
      ForwardCreate exampleDeps (exampleSyncer true) (Object.secret none)
        = ⟨Outcome.ret ({ Requeue := false, RequeueAfter := 0 },
            some (Err.notASecret (Object.secret none))), []⟩ ∧
      ForwardUpdate exampleDeps (exampleSyncer true) (Object.secret none) (Object.secret none)
        = ⟨Outcome.ret ({ Requeue := false, RequeueAfter := 0 },
            some (Err.notASecret (Object.secret none))), []⟩ ∧
      ForwardUpdateNeeded exampleDeps (exampleSyncer true) (Object.secret none)
          (Object.secret none)
        = ⟨Outcome.ret (false, some (Err.notASecret (Object.secret none))), []⟩ :=
  non_secret_rejected exampleDeps (exampleSyncer true) (Object.secret none) (Object.secret none)
    (fun _ hEq => by cases hEq)

/-! ## Backward sync: properties -/

/-- C16: for every syncer, physical object and virtual object,
`BackwardUpdateNeeded` returns `(false, nil)` and `BackwardUpdate` returns the
empty result and no error, both with an empty trace: no read or write on
either store and no event. -/
theorem backward_noop (s : syncer) (pObj : Object) (vObj : Object) :
    (BackwardUpdateNeeded s pObj vObj).val = Outcome.ret (false, none) ∧
      (BackwardUpdateNeeded s pObj vObj).trace = [] ∧
      (BackwardUpdate s pObj vObj).val
        = Outcome.ret ({ Requeue := false, RequeueAfter := 0 }, none) ∧
      (BackwardUpdate s pObj vObj).trace = [] := by
  refine ⟨?_, ?_, ?_, ?_⟩
  · simp [BackwardUpdateNeeded]
  · simp [BackwardUpdateNeeded]
  · simp [BackwardUpdate]
  · simp [BackwardUpdate]

/-! ## Delegation of the update to the create -/

/-- A trace of reads holds no `Delete`. -/
theorem reads_no_delete (t : List Effect) (h : ∀ e ∈ t, e.isRead = true) :
    t.filter Effect.isDelete = [] := by
  apply List.filter_eq_nil_iff.mpr
  intro e he
  have := h e he
  cases e <;> simp_all [Effect.isRead, Effect.isDelete]

/-- `ForwardCreate` never issues a `Delete`. -/
theorem ForwardCreate_no_delete (d : Deps) (s : syncer) (vObj : Object) :
    (ForwardCreate d s vObj).trace.filter Effect.isDelete = [] := by
  have hr := reads_no_delete _ (isSecretUsed_reads s vObj)
  rcases hv : (isSecretUsed s vObj).val with ⟨b, _ | err⟩
  · cases b
    · simp [ForwardCreate, ForwardCreateNeeded, hv, hr]
    · cases vObj with
      | secret o =>
        cases hT : translate d s (Object.secret o) with
        | panic m => simp [ForwardCreate, ForwardCreateNeeded, hv, hr, hT]
        | ret x =>
          cases x with
          | error e => simp [ForwardCreate, ForwardCreateNeeded, hv, hr, hT]
          | ok t =>
            cases hA : d.Apply s.localClient t <;> cases o <;>
              simp [ForwardCreate, ForwardCreateNeeded, hv, hr, hT, hA, List.filter_append,
                Effect.isDelete]
      | pod p => simp [ForwardCreate, ForwardCreateNeeded, hv, hr]
      | ingress i => simp [ForwardCreate, ForwardCreateNeeded, hv, hr]
      | other k a b => simp [ForwardCreate, ForwardCreateNeeded, hv, hr]
  · simp [ForwardCreate, ForwardCreateNeeded, hv, hr]

/-- C17: for a physical object `pObj` and a used virtual secret (the index
answering the same way throughout the call), `ForwardUpdate` returns what
`ForwardCreate` returns, its trace is the index queries of its own usage
check followed by the trace of `ForwardCreate`, so its writes to the physical
store and its events are those of `ForwardCreate`, and it issues no
`Delete`. -/
theorem ForwardUpdate_used_delegates (d : Deps) (s : syncer) (pObj : Object) (secret : Secret)
    (pods : List Object)
    (hPods : s.virtualClient.List Kind.Pod (secret.Namespace ++ "/" ++ secret.Name) = .ok pods)
    (hRef : pods ≠ [] ∨ (s.includeIngresses = true ∧ ∃ ingresses,
      s.virtualClient.List Kind.Ingress (secret.Namespace ++ "/" ++ secret.Name) = .ok ingresses ∧
        ingresses ≠ [])) :
    (ForwardUpdate d s pObj (Object.secret (some secret))).val
        = (ForwardCreate d s (Object.secret (some secret))).val ∧
      (ForwardUpdate d s pObj (Object.secret (some secret))).trace
        = (isSecretUsed s (Object.secret (some secret))).trace ++
          (ForwardCreate d s (Object.secret (some secret))).trace ∧
      (ForwardUpdate d s pObj (Object.secret (some secret))).trace.filter Effect.isMutation
        = (ForwardCreate d s (Object.secret (some secret))).trace.filter Effect.isMutation ∧
      (ForwardUpdate d s pObj (Object.secret (some secret))).trace.filter Effect.isEvent
        = (ForwardCreate d s (Object.secret (some secret))).trace.filter Effect.isEvent ∧
      (ForwardUpdate d s pObj (Object.secret (some secret))).trace.filter Effect.isDelete
        = [] := by
  have hval := isSecretUsed_used s secret pods hPods hRef
  have hmut := isSecretUsed_no_mutation s (Object.secret (some secret))
  have hev := isSecretUsed_no_event s (Object.secret (some secret))
  have hdel := reads_no_delete _ (isSecretUsed_reads s (Object.secret (some secret)))
  have hcd := ForwardCreate_no_delete d s (Object.secret (some secret))
  have hV : (ForwardUpdate d s pObj (Object.secret (some secret))).val
      = (ForwardCreate d s (Object.secret (some secret))).val := by
    simp [ForwardUpdate, hval]
  have hT : (ForwardUpdate d s pObj (Object.secret (some secret))).trace
      = (isSecretUsed s (Object.secret (some secret))).trace ++
        (ForwardCreate d s (Object.secret (some secret))).trace := by
    simp [ForwardUpdate, hval]
  refine ⟨hV, hT, ?_, ?_, ?_⟩
  · rw [hT, List.filter_append, hmut, List.nil_append]
  · rw [hT, List.filter_append, hev, List.nil_append]
  · rw [hT, List.filter_append, hdel, hcd, List.nil_append]

/-- Witness of C17: the update of the used secret `ns/db-pw`. -/
theorem ForwardUpdate_used_delegates_witness :
    (ForwardUpdate exampleDeps (exampleSyncer true) (Object.secret (some dbPwPhysical))
        (Object.secret (some dbPw))).val
        = (ForwardCreate exampleDeps (exampleSyncer true) (Object.secret (some dbPw))).val ∧
      (ForwardUpdate exampleDeps (exampleSyncer true) (Object.secret (some dbPwPhysical))
        (Object.secret (some dbPw))).trace
        = (isSecretUsed (exampleSyncer true) (Object.secret (some dbPw))).trace ++
          (ForwardCreate exampleDeps (exampleSyncer true) (Object.secret (some dbPw))).trace ∧
      (ForwardUpdate exampleDeps (exampleSyncer true) (Object.secret (some dbPwPhysical))
        (Object.secret (some dbPw))).trace.filter Effect.isMutation
        = (ForwardCreate exampleDeps (exampleSyncer true)
          (Object.secret (some dbPw))).trace.filter Effect.isMutation ∧
      (ForwardUpdate exampleDeps (exampleSyncer true) (Object.secret (some dbPwPhysical))
        (Object.secret (some dbPw))).trace.filter Effect.isEvent
        = (ForwardCreate exampleDeps (exampleSyncer true)
          (Object.secret (some dbPw))).trace.filter Effect.isEvent ∧
      (ForwardUpdate exampleDeps (exampleSyncer true) (Object.secret (some dbPwPhysical))
        (Object.secret (some dbPw))).trace.filter Effect.isDelete = [] :=
  ForwardUpdate_used_delegates exampleDeps (exampleSyncer true)
    (Object.secret (some dbPwPhysical)) dbPw [Object.pod appPod] rfl (Or.inl (by decide))

/-! ## The translator: frame -/

/-- C19: when the metadata setup succeeds with the secret `m`, `translate`
returns `m` itself if the type of `m` is not the service-account-token type,
and otherwise `m` with the type replaced by `SecretTypeOpaque`; in both cases
the namespace, name, labels, annotations and data of the result are those of
`m`. -/
theorem translate_frame (d : Deps) (s : syncer) (vObj : Object) (m : Secret)
    (h : d.SetupMetadata s.targetNamespace vObj = .ok (Object.secret (some m))) :
    (m.Type_ ≠ SecretTypeServiceAccountToken → translate d s vObj = Outcome.ret (.ok m)) ∧
      (m.Type_ = SecretTypeServiceAccountToken →
        translate d s vObj = Outcome.ret (.ok { m with Type_ := SecretTypeOpaque })) ∧
      (∃ t, translate d s vObj = Outcome.ret (.ok t) ∧ t.Namespace = m.Namespace ∧
        t.Name = m.Name ∧ t.Labels = m.Labels ∧ t.Annotations = m.Annotations ∧
        t.Data = m.Data ∧ (t.Type_ = m.Type_ ∨ t.Type_ = SecretTypeOpaque)) := by
  by_cases hT : m.Type_ = SecretTypeServiceAccountToken
  · refine ⟨fun hne => absurd hT hne, fun _ => by simp [translate, h, hT], ?_⟩
    exact ⟨{ m with Type_ := SecretTypeOpaque }, by simp [translate, h, hT], rfl, rfl, rfl, rfl,
      rfl, Or.inr rfl⟩
  · refine ⟨fun _ => by simp [translate, h, hT], fun heq => absurd heq hT, ?_⟩
    exact ⟨m, by simp [translate, h, hT], rfl, rfl, rfl, rfl, rfl, Or.inl rfl⟩

/-- Witness of C19: the service-account token `ns/sa-token`; only its type
differs from what the metadata setup returned. -/
theorem translate_frame_witness :
    translate exampleDeps (exampleSyncer true) (Object.secret (some saToken))
      = Outcome.ret (.ok saTokenPhysical) :=
  (translate_frame exampleDeps (exampleSyncer true) (Object.secret (some saToken))
    { saTokenPhysical with Type_ := SecretTypeServiceAccountToken } rfl).2.1 rfl

/-! ## The ingress toggle -/

/-- C15: when `DisableSyncResources` contains `ingresses`, `Register` adds no
index of kind `Ingress`, and if it registers a syncer, that syncer has
`includeIngresses` false and the builder hook adds exactly one watch, of kind
`Pod`, whose map function returns no request for an ingress; the usage check
of that syncer never queries the ingress index: it gives the same answer and
trace for every virtual client that agrees on the pod index, and reports a
secret without referencing pods unused. -/
theorem ingresses_disabled (d : Deps) (ctx : ControllerContext)
    (hOff : Contains ctx.DisableSyncResources "ingresses" = true) :
    (∀ kf ∈ (Register d ctx).indexes, kf.1 = Kind.Pod) ∧
      (∀ s hook, (Register d ctx).registered = some (s, hook) →
        s.includeIngresses = false ∧
        (∀ builder, (hook builder).map Watch.kind = builder.map Watch.kind ++ [Kind.Pod]) ∧
        (∀ w ∈ hook [], w.kind = Kind.Pod ∧ ∀ ingress, w.mapFn (Object.ingress ingress) = []) ∧
        (∀ (c : Client) (vObj : Object),
          (∀ key, c.List Kind.Pod key = s.virtualClient.List Kind.Pod key) →
          isSecretUsed { s with virtualClient := c } vObj = isSecretUsed s vObj) ∧
        (∀ (vObj : Object), ∀ e ∈ (isSecretUsed s vObj).trace, ∀ key : String,
          e ≠ Effect.List Kind.Ingress key) ∧
        (∀ secret : Secret,
          s.virtualClient.List Kind.Pod (secret.Namespace ++ "/" ++ secret.Name) = .ok [] →
          (isSecretUsed s (Object.secret (some secret))).val = (false, none))) := by
  have hInc : (Contains ctx.DisableSyncResources "ingresses" == false) = false := by
    simp [hOff]
  have hUsage : ∀ s : syncer, s.includeIngresses = false →
      (∀ (c : Client) (vObj : Object),
        (∀ key, c.List Kind.Pod key = s.virtualClient.List Kind.Pod key) →
        isSecretUsed { s with virtualClient := c } vObj = isSecretUsed s vObj) ∧
      (∀ (vObj : Object), ∀ e ∈ (isSecretUsed s vObj).trace, ∀ key : String,
        e ≠ Effect.List Kind.Ingress key) ∧
      (∀ secret : Secret,
        s.virtualClient.List Kind.Pod (secret.Namespace ++ "/" ++ secret.Name) = .ok [] →
        (isSecretUsed s (Object.secret (some secret))).val = (false, none)) := by
    intro s hI
    refine ⟨?_, ?_, ?_⟩
    · intro c vObj hc
      cases vObj with
      | secret o =>
        cases o with
        | none => rfl
        | some v => simp [isSecretUsed, hI, hc]
      | pod p => rfl
      | ingress i => rfl
      | other k a b => rfl
    · intro vObj e he key
      cases vObj with
      | secret o =>
        cases o with
        | none => simp [isSecretUsed] at he
        | some v =>
          cases h1 : s.virtualClient.List Kind.Pod (v.Namespace ++ "/" ++ v.Name) with
          | error err =>
            simp [isSecretUsed, h1] at he
            subst he
            simp
          | ok pods =>
            by_cases hp : 0 < pods.length
            · simp [isSecretUsed, h1, hp] at he
              subst he
              simp
            · simp [isSecretUsed, h1, hp, hI] at he
              subst he
              simp
      | pod p => simp [isSecretUsed] at he
      | ingress i => simp [isSecretUsed] at he
      | other k a b => simp [isSecretUsed] at he
    · intro secret hPods
      exact isSecretUsed_unused s secret hPods (fun h => by rw [hI] at h; cases h)
  refine ⟨?_, ?_⟩
  · intro kf hkf
    unfold Register at hkf
    cases h1 : ctx.IndexField Kind.Pod with
    | some e => simp [h1] at hkf
    | none =>
      simp [h1, hInc] at hkf
      rw [hkf]
  · intro s hook hReg
    unfold Register at hReg
    cases h1 : ctx.IndexField Kind.Pod with
    | some e => simp [h1] at hReg
    | none =>
      simp [h1, hInc] at hReg
      obtain ⟨hs, hh⟩ := hReg
      have hI : s.includeIngresses = false := by rw [← hs]
      refine ⟨hI, ?_, ?_, hUsage s hI⟩
      · intro builder
        rw [← hh]
        simp [ModifyForwardSyncer]
      · intro w hw
        rw [← hh] at hw
        simp [ModifyForwardSyncer] at hw
        subst hw
        exact ⟨rfl, fun _ => rfl⟩

/-- Witness of C15: under the context `noIngressContext` the registered
syncer reports the secret `ns/tls-cert`, which only the ingress `ns/web`
references, unused. -/
theorem ingresses_disabled_witness :
    (isSecretUsed (exampleSyncer false) (Object.secret (some tlsCert))).val = (false, none) :=
  ((ingresses_disabled exampleDeps noIngressContext (by decide)).2 (exampleSyncer false)
    (ModifyForwardSyncer exampleDeps false) rfl).2.2.2.2.2 tlsCert rfl

/-! ## Routing and usage lookup -/

/-- The requests `mapPods` returns are the requests of the reference strings
extracted from the pod. -/
theorem mem_mapPods (d : Deps) (obj : Object) (r : Request) :
    r ∈ mapPods d obj ↔
      ∃ pod, obj = Object.pod pod ∧ ∃ name ∈ d.SecretNamesFromPod pod, requestOf name = some r := by
  cases obj with
  | pod pod => simp [mapPods, foldl_appendRequest, List.mem_filterMap]
  | secret o => simp [mapPods]
  | ingress i => simp [mapPods]
  | other k a b => simp [mapPods]

/-- The requests `mapIngresses` returns are the requests of the reference
strings extracted from the ingress. -/
theorem mem_mapIngresses (d : Deps) (obj : Object) (r : Request) :
    r ∈ mapIngresses d obj ↔
      ∃ ingress, obj = Object.ingress ingress ∧
        ∃ name ∈ d.SecretNamesFromIngress ingress, requestOf name = some r := by
  cases obj with
  | ingress ingress => simp [mapIngresses, foldl_appendRequest, List.mem_filterMap]
  | secret o => simp [mapIngresses]
  | pod p => simp [mapIngresses]
  | other k a b => simp [mapIngresses]

/-- The usage check of a secret queries the index under the key
`Namespace + "/" + Name`, first for pods. -/
theorem isSecretUsed_keys (s : syncer) (secret : Secret) :
    (isSecretUsed s (Object.secret (some secret))).trace.head?
        = some (Effect.List Kind.Pod (secret.Namespace ++ "/" ++ secret.Name)) ∧
      ∀ e ∈ (isSecretUsed s (Object.secret (some secret))).trace,
        e = Effect.List Kind.Pod (secret.Namespace ++ "/" ++ secret.Name) ∨
          e = Effect.List Kind.Ingress (secret.Namespace ++ "/" ++ secret.Name) := by
  cases h1 : s.virtualClient.List Kind.Pod (secret.Namespace ++ "/" ++ secret.Name) with
  | error e => simp [isSecretUsed, h1]
  | ok pods =>
    cases hI : s.includeIngresses <;>
      cases h2 : s.virtualClient.List Kind.Ingress (secret.Namespace ++ "/" ++ secret.Name) <;>
      by_cases hp : 0 < pods.length <;>
      simp [isSecretUsed, h1, h2, hI, hp]

/-- C18: for every extracted reference string `name` that `mapPods` or
`mapIngresses` turns into the request `r`, the key under which `isSecretUsed`
queries the index for the secret with the namespace and name of `r` is
`name` itself; and a store that answers through the secret index returns,
for that key, the object the request came from. -/
theorem routed_key_is_query_key (d : Deps) (s : syncer) (obj : Object) (r : Request)
    (secret : Secret)
    (h : r ∈ mapPods d obj ∨ r ∈ mapIngresses d obj)
    (hNamespace : secret.Namespace = r.NamespacedName.Namespace)
    (hName : secret.Name = r.NamespacedName.Name) :
    ∃ name : String,
      Split name '/' = [r.NamespacedName.Namespace, r.NamespacedName.Name] ∧
      secret.Namespace ++ "/" ++ secret.Name = name ∧
      (isSecretUsed s (Object.secret (some secret))).trace.head?
        = some (Effect.List Kind.Pod name) ∧
      (∀ e ∈ (isSecretUsed s (Object.secret (some secret))).trace,
        e = Effect.List Kind.Pod name ∨ e = Effect.List Kind.Ingress name) ∧
      ((∃ pod, obj = Object.pod pod ∧ name ∈ d.SecretNamesFromPod pod ∧
          ∀ objects, obj ∈ objects →
            ∃ answer, (storeOf d objects).List Kind.Pod name = .ok answer ∧ obj ∈ answer) ∨
        (∃ ingress, obj = Object.ingress ingress ∧ name ∈ d.SecretNamesFromIngress ingress ∧
          ∀ objects, obj ∈ objects →
            ∃ answer, (storeOf d objects).List Kind.Ingress name = .ok answer ∧
              obj ∈ answer)) := by
  have hK := isSecretUsed_keys s secret
  have hJoin : ∀ name : String, requestOf name = some r →
      Split name '/' = [r.NamespacedName.Namespace, r.NamespacedName.Name] ∧
        secret.Namespace ++ "/" ++ secret.Name = name := by
    intro name hreq
    have hS := (requestOf_eq_some name r).mp hreq
    refine ⟨hS, ?_⟩
    rw [hNamespace, hName]
    exact (Split_pair name _ _ hS).1.symm
  rcases h with h | h
  · obtain ⟨pod, hobj, name, hname, hreq⟩ := (mem_mapPods d obj r).mp h
    obtain ⟨hS, hEq⟩ := hJoin name hreq
    refine ⟨name, hS, hEq, ?_, ?_, Or.inl ⟨pod, hobj, hname, ?_⟩⟩
    · rw [← hEq]; exact hK.1
    · rw [← hEq]; exact hK.2
    · intro objects hin
      refine ⟨_, rfl, ?_⟩
      subst hobj
      simp [List.mem_filter, hin, hname]
  · obtain ⟨ingress, hobj, name, hname, hreq⟩ := (mem_mapIngresses d obj r).mp h
    obtain ⟨hS, hEq⟩ := hJoin name hreq
    refine ⟨name, hS, hEq, ?_, ?_, Or.inr ⟨ingress, hobj, hname, ?_⟩⟩
    · rw [← hEq]; exact hK.1
    · rw [← hEq]; exact hK.2
    · intro objects hin
      refine ⟨_, rfl, ?_⟩
      subst hobj
      simp [List.mem_filter, hin, hname]

/-- Witness of C18: the request `ns/db-pw` that the pod `ns/app` gives rise
to, and the secret `ns/db-pw`. -/
theorem routed_key_is_query_key_witness :
    ∃ name : String,
      Split name '/' = ["ns", "db-pw"] ∧
      dbPw.Namespace ++ "/" ++ dbPw.Name = name ∧
      (isSecretUsed (exampleSyncer true) (Object.secret (some dbPw))).trace.head?
        = some (Effect.List Kind.Pod name) ∧
      (∀ e ∈ (isSecretUsed (exampleSyncer true) (Object.secret (some dbPw))).trace,
        e = Effect.List Kind.Pod name ∨ e = Effect.List Kind.Ingress name) ∧
      ((∃ pod, Object.pod appPod = Object.pod pod ∧ name ∈ exampleDeps.SecretNamesFromPod pod ∧
          ∀ objects, Object.pod appPod ∈ objects →
            ∃ answer, (storeOf exampleDeps objects).List Kind.Pod name = .ok answer ∧
              Object.pod appPod ∈ answer) ∨
        (∃ ingress, Object.pod appPod = Object.ingress ingress ∧
          name ∈ exampleDeps.SecretNamesFromIngress ingress ∧
          ∀ objects, Object.pod appPod ∈ objects →
            ∃ answer, (storeOf exampleDeps objects).List Kind.Ingress name = .ok answer ∧
              Object.pod appPod ∈ answer)) :=
  routed_key_is_query_key exampleDeps (exampleSyncer true) (Object.pod appPod)
    { NamespacedName := { Namespace := "ns", Name := "db-pw" } } dbPw
    (Or.inl (by decide)) rfl rfl

end Secrets
